import Mathlib

/-!
pyworkflow: task wrappers and ownership bridging (`src/other_types.h`)

A shallow embedding of the header `other_types.h`.

Modelling conventions.

* An owning pointer is an `Option`: `none` is `nullptr`, `some x` is a live
  heap object holding `x`.  A raw, non-owning address (`void *buf`,
  `iov_base`) is a natural number and `0` is the null pointer.
* An operation with side effects returns the new state together with the
  list of effects it performed, in program order (`List Event`).
* An operation whose C++ text dereferences a pointer that may be null, or
  indexes past the end of an array, returns `Option`; `none` stands for
  undefined behaviour.
-/

namespace PyWF

/-! ## Host values, memory, events -/

/-- Raw machine address; `0` is the null pointer. -/
abbrev Addr := Nat

/-- One `char` of memory. -/
abbrev Byte := Fin 256

/-- Byte-addressed memory; an address that is not mapped reads as `none`. -/
abbrev Mem := Addr → Option Byte

/-- A `py::object`: a counted reference to a host value.  `py_none` is the
host runtime's `None` singleton, `ref n` is the host value with identity `n`. -/
inductive PyObject where
  | py_none
  | ref (id : Nat)
  deriving DecidableEq, Repr

/-- `py::object::is_none()`. -/
def PyObject.is_none : PyObject → Bool
  | .py_none => true
  | .ref _ => false

/-- A host callback (`std::function<void(PyWF...Task)>` built from a host
callable), identified by the callable it wraps. -/
structure PyCallback where
  id : Nat
  deriving DecidableEq, Repr

/-- Effects of the layer that are visible outside the record or task they act on. -/
inductive Event where
  /-- Constructor of a `py::gil_scoped_acquire` local. -/
  | gil_acquire
  /-- Destructor of that local at the end of its scope. -/
  | gil_release
  /-- `new py::object(o)`: a fresh holder of the host value `o`. -/
  | new_obj (o : PyObject)
  /-- `delete` of a `py::object*` user-data holder that refers to `o`. -/
  | delete_obj (o : PyObject)
  /-- Destruction of one byte-container handle (`delete bytes`, or one element
  of `delete[] bytes`). -/
  | delete_bytes (b : PyObject)
  /-- A call `free(p)`. -/
  | free (p : Addr)
  /-- The statement `delete[] iov`. -/
  | delete_iov
  /-- The statement `delete static_cast<FileTaskData*>(t->user_data)`. -/
  | delete_record
  /-- Entry into a call `py_callback_wrapper(f, W)` where `W` is a fresh wrapper
  over the task; `seen` is what `W.get_user_data()` yields on entry (`none`
  when no record is attached, where that call is undefined). -/
  | py_callback_wrapper (f : PyCallback) (seen : Option PyObject)
  /-- Return from the call `py_callback_wrapper(f, W)`. -/
  | py_callback_returned (f : PyCallback)
  deriving DecidableEq, Repr

/-- Events that release a host value. -/
def Event.is_host_release : Event → Bool
  | .delete_obj _ => true
  | .delete_bytes _ => true
  | _ => false

/-- Events on the user-data holder of a record. -/
def Event.is_obj_event : Event → Bool
  | .new_obj _ => true
  | .delete_obj _ => true
  | _ => false

/-- The addresses passed to `free`, in call order. -/
def frees : List Event → List Addr
  | [] => []
  | .free p :: es => p :: frees es
  | _ :: es => frees es

/-- The byte-container handles released, in order. -/
def bytes_released : List Event → List PyObject
  | [] => []
  | .delete_bytes b :: es => b :: bytes_released es
  | _ :: es => bytes_released es

/-- The user-data values released, in order. -/
def objs_released : List Event → List PyObject
  | [] => []
  | .delete_obj o :: es => o :: objs_released es
  | _ :: es => objs_released es

/-- The user-data values stored in a fresh holder, in order. -/
def objs_stored : List Event → List PyObject
  | [] => []
  | .new_obj o :: es => o :: objs_stored es
  | _ :: es => objs_stored es

/-- Checks that every host-value release of a trace happens while the trace
itself holds the host lock: `depth` counts the scoped acquisitions that are
open at the head of the trace. -/
def releases_under_lock : Nat → List Event → Bool
  | _, [] => true
  | depth, .gil_acquire :: es => releases_under_lock (depth + 1) es
  | depth, .gil_release :: es => releases_under_lock (depth - 1) es
  | depth, e :: es =>
      (if e.is_host_release then decide (0 < depth) else true) && releases_under_lock depth es

/-- `py::bytes(p, n)`: the `n` bytes of memory starting at `p`. -/
def read_bytes (mem : Mem) : Addr → Nat → Option (List Byte)
  | _, 0 => some []
  | p, n + 1 =>
      match mem p with
      | none => none
      | some b => (read_bytes mem (p + 1) n).map (fun bs => b :: bs)

/-! ## Owned resource records (lines 8-81) -/

/-- `class FileTaskData`: `obj` is the `py::object *obj` member. -/
structure FileTaskData where
  obj : Option PyObject
  deriving DecidableEq, Repr

/-- `FileTaskData::FileTaskData()`. -/
def FileTaskData.new : FileTaskData := { obj := none }

/-- `FileTaskData::~FileTaskData()`. -/
def FileTaskData.dtor (d : FileTaskData) : List Event :=
  match d.obj with
  | some o => [Event.gil_acquire, Event.delete_obj o, Event.gil_release]
  | none => []

/-- `FileTaskData::set_obj`. -/
def FileTaskData.set_obj (d : FileTaskData) (o : PyObject) : FileTaskData × List Event :=
  let old := d.obj
  let ev_old : List Event :=
    match old with
    | some v => [Event.delete_obj v]
    | none => []
  if o.is_none = false then
    ({ obj := some o }, ev_old ++ [Event.new_obj o])
  else
    ({ obj := none }, ev_old)

/-- `FileTaskData::get_obj`. -/
def FileTaskData.get_obj (d : FileTaskData) : PyObject :=
  match d.obj with
  | none => PyObject.py_none
  | some o => o

/-- `class FileIOTaskData : public FileTaskData`. -/
structure FileIOTaskData extends FileTaskData where
  buf : Addr
  bytes : Option PyObject
  deriving DecidableEq, Repr

/-- `FileIOTaskData::FileIOTaskData(buf, bytes)`. -/
def FileIOTaskData.new (buf : Addr) (bytes : Option PyObject) : FileIOTaskData :=
  { FileTaskData.new with buf := buf, bytes := bytes }

/-- `FileIOTaskData::~FileIOTaskData()`, followed by the base destructor. -/
def FileIOTaskData.dtor (d : FileIOTaskData) : List Event :=
  (if d.buf ≠ 0 then [Event.free d.buf] else []) ++
  (match d.bytes with
   | some b => [Event.gil_acquire, Event.delete_bytes b, Event.gil_release]
   | none => []) ++
  d.toFileTaskData.dtor

/-- `set_obj` inherited by `FileIOTaskData`. -/
def FileIOTaskData.set_obj (d : FileIOTaskData) (o : PyObject) : FileIOTaskData × List Event :=
  let r := d.toFileTaskData.set_obj o
  ({ d with toFileTaskData := r.1 }, r.2)

/-- `get_obj` inherited by `FileIOTaskData`. -/
def FileIOTaskData.get_obj (d : FileIOTaskData) : PyObject :=
  d.toFileTaskData.get_obj

/-- `struct iovec`. -/
structure iovec where
  iov_base : Addr
  iov_len : Nat
  deriving DecidableEq, Repr

/-- `class FileVIOTaskData : public FileTaskData`.  `iov` and `bytes` are the
arrays the two pointers refer to (`none` for a null pointer). -/
structure FileVIOTaskData extends FileTaskData where
  iov : Option (List iovec)
  with_buf : Bool
  bytes : Option (List PyObject)
  count : Nat
  deriving DecidableEq, Repr

/-- `FileVIOTaskData::FileVIOTaskData(iov, with_buf, bytes, count)`. -/
def FileVIOTaskData.new (iov : Option (List iovec)) (with_buf : Bool)
    (bytes : Option (List PyObject)) (count : Nat) : FileVIOTaskData :=
  { FileTaskData.new with iov := iov, with_buf := with_buf, bytes := bytes, count := count }

/-- The loop `for(size_t i = 0; i < count; i++) free(iov[i].iov_base);` from
index `i` with `left = count - i` iterations to go.  Reading past the end of
the array is undefined. -/
def free_iov_bases (arr : List iovec) : Nat → Nat → Option (List Event)
  | _, 0 => some []
  | i, left + 1 =>
      match arr[i]? with
      | none => none
      | some v => (free_iov_bases arr (i + 1) left).map (fun es => Event.free v.iov_base :: es)

/-- `delete[] bytes`: the elements are destroyed last to first. -/
def delete_bytes_array (bs : List PyObject) : List Event :=
  bs.reverse.map Event.delete_bytes

/-- `FileVIOTaskData::~FileVIOTaskData()`, followed by the base destructor. -/
def FileVIOTaskData.dtor (d : FileVIOTaskData) : Option (List Event) :=
  let loop : Option (List Event) :=
    match d.iov, d.with_buf with
    | some arr, true => free_iov_bases arr 0 d.count
    | _, _ => some []
  let del_iov : List Event :=
    match d.iov with
    | some _ => [Event.delete_iov]
    | none => []
  let del_bytes : List Event :=
    match d.bytes with
    | some bs => [Event.gil_acquire] ++ delete_bytes_array bs ++ [Event.gil_release]
    | none => []
  loop.map (fun es => es ++ del_iov ++ del_bytes ++ d.toFileTaskData.dtor)

/-- `set_obj` inherited by `FileVIOTaskData`. -/
def FileVIOTaskData.set_obj (d : FileVIOTaskData) (o : PyObject) : FileVIOTaskData × List Event :=
  let r := d.toFileTaskData.set_obj o
  ({ d with toFileTaskData := r.1 }, r.2)

/-- `get_obj` inherited by `FileVIOTaskData`. -/
def FileVIOTaskData.get_obj (d : FileVIOTaskData) : PyObject :=
  d.toFileTaskData.get_obj

/-- The destructor loop of a vectored record stays inside its descriptor array. -/
def FileVIOTaskData.in_bounds (d : FileVIOTaskData) : Prop :=
  match d.iov, d.with_buf with
  | some arr, true => d.count ≤ arr.length
  | _, _ => True

instance (d : FileVIOTaskData) : Decidable d.in_bounds := by
  unfold FileVIOTaskData.in_bounds
  split <;> infer_instance

/-- What a `FileTaskData*` stored in a file task's `user_data` slot points to:
an object of the base class or of one of the two derived classes. -/
inductive Record where
  | plain (d : FileTaskData)
  | io (d : FileIOTaskData)
  | vio (d : FileVIOTaskData)
  deriving DecidableEq, Repr

/-- `data->set_obj(o)` through a `FileTaskData*`. -/
def Record.set_obj : Record → PyObject → Record × List Event
  | .plain d, o => (.plain (d.set_obj o).1, (d.set_obj o).2)
  | .io d, o => (.io (d.set_obj o).1, (d.set_obj o).2)
  | .vio d, o => (.vio (d.set_obj o).1, (d.set_obj o).2)

/-- `data->get_obj()` through a `FileTaskData*`. -/
def Record.get_obj : Record → PyObject
  | .plain d => d.get_obj
  | .io d => d.get_obj
  | .vio d => d.get_obj

/-- The virtual destructor called by `delete` on a `FileTaskData*`. -/
def Record.dtor : Record → Option (List Event)
  | .plain d => some d.dtor
  | .io d => some d.dtor
  | .vio d => d.dtor

/-- The destructor of the record is defined. -/
def Record.in_bounds : Record → Prop
  | .vio d => d.in_bounds
  | _ => True

instance (r : Record) : Decidable r.in_bounds := by
  cases r <;> unfold Record.in_bounds <;> infer_instance

/-- A run of `set_obj` calls on one record, one per element of `os`. -/
def Record.set_obj_seq : Record → List PyObject → Record × List Event
  | r, [] => (r, [])
  | r, o :: os =>
      let s := r.set_obj o
      let t := Record.set_obj_seq s.1 os
      (t.1, s.2 ++ t.2)

/-- A run of `set_obj` calls followed by `delete` of the record. -/
def Record.lifetime (r : Record) (os : List PyObject) : Option (List Event) :=
  let s := r.set_obj_seq os
  (s.1.dtor).map (fun es => s.2 ++ es)

/-! ## Callback bridge and file tasks (lines 83-145) -/

/-- `class TaskDeleterWrapper`: the member `f`.  The member `t` points back to
the task in whose callback slot the owning closure sits, so the destructor
below takes that task as its argument. -/
structure TaskDeleterWrapper where
  f : PyCallback
  deriving DecidableEq, Repr

/-- The engine's `WFFileTask<Args>`, reduced to what this layer reads or
writes.  The callback slot holds either nothing or the closure built by
`PyWFFileTask::set_callback`, which is the sole owner of its bridge. -/
structure WFFileTask (Args : Type) where
  args : Args
  retval : Int
  state : Int
  error : Int
  user_data : Option Record
  callback : Option TaskDeleterWrapper

/-- `TaskDeleterWrapper<Func, WFFileTask<Arg>>::~TaskDeleterWrapper()` (lines 94-99). -/
def TaskDeleterWrapper.dtor {Args : Type} (t : WFFileTask Args) :
    Option (WFFileTask Args × List Event) :=
  match t.user_data with
  | some r => (r.dtor).map (fun es => ({ t with user_data := none }, Event.delete_record :: es))
  | none => some (t, [])

/-- The engine's `set_callback(std::function)` (the engine is outside the
repository; the layer uses one callback slot per task): the slot is
move-assigned, and the closure it held before is destroyed together with the
bridge that closure alone owns, which runs the destructor above on the task. -/
def WFFileTask.set_callback {Args : Type} (t : WFFileTask Args) (deleter : TaskDeleterWrapper) :
    Option (WFFileTask Args × List Event) :=
  let old := t.callback
  let t1 := { t with callback := some deleter }
  match old with
  | some _ => TaskDeleterWrapper.dtor t1
  | none => some (t1, [])

/-- `PyWFFileTask::get_args`. -/
def PyWFFileTask.get_args {Args : Type} (t : WFFileTask Args) : Args := t.args

/-- `PyWFFileTask::get_retval`. -/
def PyWFFileTask.get_retval {Args : Type} (t : WFFileTask Args) : Int := t.retval

/-- `PyWFFileTask::get_state`. -/
def PyWFFileTask.get_state {Args : Type} (t : WFFileTask Args) : Int := t.state

/-- `PyWFFileTask::get_error`. -/
def PyWFFileTask.get_error {Args : Type} (t : WFFileTask Args) : Int := t.error

/-- `PyWFFileTask::set_callback` (lines 126-136). -/
def PyWFFileTask.set_callback {Args : Type} (t : WFFileTask Args) (cb : PyCallback) :
    Option (WFFileTask Args × List Event) :=
  let user_data := t.user_data
  let task := { t with user_data := none }
  let deleter : TaskDeleterWrapper := { f := cb }
  match WFFileTask.set_callback task deleter with
  | none => none
  | some (task1, es) => some ({ task1 with user_data := user_data }, es)

/-- `PyWFFileTask::set_user_data`; undefined when the slot is null. -/
def PyWFFileTask.set_user_data {Args : Type} (t : WFFileTask Args) (obj : PyObject) :
    Option (WFFileTask Args × List Event) :=
  match t.user_data with
  | none => none
  | some data =>
      let r := data.set_obj obj
      some ({ t with user_data := some r.1 }, r.2)

/-- `PyWFFileTask::get_user_data`; undefined when the slot is null. -/
def PyWFFileTask.get_user_data {Args : Type} (t : WFFileTask Args) : Option PyObject :=
  match t.user_data with
  | none => none
  | some data => some data.get_obj

/-- A call that a host callback makes on the wrapper `W` it receives.  The
accessors `get_args`, `get_retval`, `get_state` and `get_error` read the task
and leave no trace, like `get_user_data`; `start` and `dismiss` are not legal on
a task whose callback is running. -/
inductive WrapperCall where
  /-- The call `W.get_user_data()`. -/
  | get_user_data
  /-- The call `W.set_user_data(obj)`. -/
  | set_user_data (obj : PyObject)
  /-- The call `W.set_callback(cb)`. -/
  | set_callback (cb : PyCallback)
  deriving DecidableEq, Repr

/-- What the host runtime does when it runs a host callback: the calls the
callback makes on the wrapper it receives, in order, as a function of the
callback and of the task the wrapper points to on entry. -/
abbrev HostRuntime (Args : Type) := PyCallback → WFFileTask Args → List WrapperCall

/-- The calls of a host callback carried out on the task, one after the other,
by `PyWFFileTask::get_user_data`, `PyWFFileTask::set_user_data` and
`PyWFFileTask::set_callback`. -/
def PyWFFileTask.run_calls {Args : Type} :
    List WrapperCall → WFFileTask Args → Option (WFFileTask Args × List Event)
  | [], t => some (t, [])
  | .get_user_data :: cs, t =>
      match PyWFFileTask.get_user_data t with
      | none => none
      | some _ => PyWFFileTask.run_calls cs t
  | .set_user_data obj :: cs, t =>
      match PyWFFileTask.set_user_data t obj with
      | none => none
      | some (t1, es) => (PyWFFileTask.run_calls cs t1).map (fun r => (r.1, es ++ r.2))
  | .set_callback cb :: cs, t =>
      match PyWFFileTask.set_callback t cb with
      | none => none
      | some (t1, es) => (PyWFFileTask.run_calls cs t1).map (fun r => (r.1, es ++ r.2))

/-- The closure installed by `PyWFFileTask::set_callback`, called with the task `p`:
`py_callback_wrapper(deleter->get_func(), PyWFFileTask<Arg>(p))`.  The host
callback runs between the entry and the return event and acts on the task
through the wrapper. -/
def PyWFFileTask.native_callback {Args : Type} (host : HostRuntime Args)
    (deleter : TaskDeleterWrapper) (p : WFFileTask Args) :
    Option (WFFileTask Args × List Event) :=
  (PyWFFileTask.run_calls (host deleter.f p) p).map (fun r =>
    (r.1, Event.py_callback_wrapper deleter.f (PyWFFileTask.get_user_data p) ::
      (r.2 ++ [Event.py_callback_returned deleter.f])))

/-- The engine completes a task (the engine is outside the repository): it calls
the closure in the callback slot once with the task, then drops the closure;
the closure is the sole owner of its bridge, so the destructor of the bridge
runs then. -/
def WFFileTask.invoke_then_drop {Args : Type} (host : HostRuntime Args) (t : WFFileTask Args) :
    Option (WFFileTask Args × List Event) :=
  match t.callback with
  | none => some (t, [])
  | some deleter =>
      match PyWFFileTask.native_callback host deleter t with
      | none => none
      | some (t1, called) =>
          match TaskDeleterWrapper.dtor { t1 with callback := none } with
          | none => none
          | some (t2, es) => some (t2, called ++ es)

/-- The values a run of wrapper calls passes to `set_user_data`, in order. -/
def WrapperCall.writes : List WrapperCall → List PyObject
  | [] => []
  | .get_user_data :: cs => WrapperCall.writes cs
  | .set_user_data obj :: cs => obj :: WrapperCall.writes cs
  | .set_callback _ :: cs => WrapperCall.writes cs

/-- The content of the callback slot after a run of wrapper calls that starts
with `slot` in it. -/
def WrapperCall.last_callback :
    List WrapperCall → Option TaskDeleterWrapper → Option TaskDeleterWrapper
  | [], slot => slot
  | .get_user_data :: cs, slot => WrapperCall.last_callback cs slot
  | .set_user_data _ :: cs, slot => WrapperCall.last_callback cs slot
  | .set_callback cb :: cs, _ => WrapperCall.last_callback cs (some { f := cb })

/-! ## Argument views (lines 147-217) -/

/-- The engine's `struct FileIOArgs`. -/
structure FileIOArgs where
  fd : Int
  buf : Addr
  count : Nat
  offset : Int
  deriving DecidableEq, Repr

/-- `class CopyableFileIOArgs`. -/
structure CopyableFileIOArgs where
  fd : Int
  content : List Byte
  offset : Int
  deriving DecidableEq, Repr

/-- `CopyableFileIOArgs::get_fd`. -/
def CopyableFileIOArgs.get_fd (c : CopyableFileIOArgs) : Int := c.fd

/-- `CopyableFileIOArgs::get_content`. -/
def CopyableFileIOArgs.get_content (c : CopyableFileIOArgs) : List Byte := c.content

/-- `CopyableFileIOArgs::get_offset`. -/
def CopyableFileIOArgs.get_offset (c : CopyableFileIOArgs) : Int := c.offset

/-- `PyFileIOArgs::get_fd`. -/
def PyFileIOArgs.get_fd (p : FileIOArgs) : Int := p.fd

/-- `PyFileIOArgs::get_content`. -/
def PyFileIOArgs.get_content (mem : Mem) (p : FileIOArgs) : Option (List Byte) :=
  let buf := p.buf
  let count := p.count
  if p.count > 0 then read_bytes mem buf count else some []

/-- `PyFileIOArgs::get_offset`. -/
def PyFileIOArgs.get_offset (p : FileIOArgs) : Int := p.offset

/-- `PyFileIOArgs::get_count`. -/
def PyFileIOArgs.get_count (p : FileIOArgs) : Nat := p.count

/-- `PyFileIOArgs::_get_content`. -/
def PyFileIOArgs._get_content (mem : Mem) (p : FileIOArgs) : Option (List Byte) :=
  let s : List Byte := []
  if p.count > 0 then read_bytes mem p.buf p.count else some s

/-- `PyFileIOArgs::copy`. -/
def PyFileIOArgs.copy (mem : Mem) (p : FileIOArgs) : Option CopyableFileIOArgs :=
  (PyFileIOArgs._get_content mem p).map
    (fun s => { fd := PyFileIOArgs.get_fd p, content := s, offset := PyFileIOArgs.get_offset p })

/-- The engine's `struct FileVIOArgs`; `iov` is the array the pointer refers to. -/
structure FileVIOArgs where
  fd : Int
  iov : Option (List iovec)
  iovcnt : Int
  offset : Int
  deriving DecidableEq, Repr

/-- `PyFileVIOArgs::get_fd`. -/
def PyFileVIOArgs.get_fd (p : FileVIOArgs) : Int := p.fd

/-- The loop of `PyFileVIOArgs::get_content` from index `i` with `left`
iterations to go; the list is built by `append`, so in index order. -/
def PyFileVIOArgs.get_content_loop (mem : Mem) (iov : Option (List iovec)) :
    Nat → Nat → Option (List (List Byte))
  | _, 0 => some []
  | i, left + 1 =>
      match iov with
      | none => none
      | some arr =>
          match arr[i]? with
          | none => none
          | some v =>
              match read_bytes mem v.iov_base v.iov_len with
              | none => none
              | some bs =>
                  (PyFileVIOArgs.get_content_loop mem iov (i + 1) left).map (fun l => bs :: l)

/-- `PyFileVIOArgs::get_content`: `i` runs over `0 ≤ i < iovcnt`. -/
def PyFileVIOArgs.get_content (mem : Mem) (p : FileVIOArgs) : Option (List (List Byte)) :=
  PyFileVIOArgs.get_content_loop mem p.iov 0 p.iovcnt.toNat

/-- `PyFileVIOArgs::get_offset`. -/
def PyFileVIOArgs.get_offset (p : FileVIOArgs) : Int := p.offset

/-! ## Timer, counter and go tasks (lines 219-344) -/

/-- The engine's `WFTimerTask`, `WFCounterTask` and `WFGoTask`, reduced to what
this layer reads or writes; `user_data` holds a `py::object*`. -/
structure WFPlainTask where
  state : Int
  error : Int
  user_data : Option PyObject
  callback : Option TaskDeleterWrapper
  deriving DecidableEq, Repr

/-- The engine's `WFTimerTask`. -/
abbrev WFTimerTask := WFPlainTask

/-- The engine's `WFCounterTask`. -/
abbrev WFCounterTask := WFPlainTask

/-- The engine's `WFGoTask`. -/
abbrev WFGoTask := WFPlainTask

/-- Modelled from the spec: the destructor of the primary template
`TaskDeleterWrapper<Func, Task>`, declared in `common_types.h`, which is not
among the sources.  "On its own destruction it deletes the task's current
Owned Resource Record and clears the slot", the record of these task kinds
being the `py::object` holder, released under the host lock. -/
def TaskDeleterWrapper.dtor_plain (t : WFPlainTask) : WFPlainTask × List Event :=
  match t.user_data with
  | some o =>
      ({ t with user_data := none }, [Event.gil_acquire, Event.delete_obj o, Event.gil_release])
  | none => (t, [])

/-- The engine's `set_callback(std::function)` on a timer, counter or go task:
the slot is move-assigned, and the closure it held before is destroyed together
with the bridge that closure alone owns. -/
def WFPlainTask.set_callback (t : WFPlainTask) (deleter : TaskDeleterWrapper) :
    WFPlainTask × List Event :=
  let old := t.callback
  let t1 := { t with callback := some deleter }
  match old with
  | some _ => TaskDeleterWrapper.dtor_plain t1
  | none => (t1, [])

/-- `PyWFTimerTask::set_user_data`. -/
def PyWFTimerTask.set_user_data (t : WFTimerTask) (obj : PyObject) : WFTimerTask × List Event :=
  let old := t.user_data
  let ev_old : List Event :=
    match old with
    | some v => [Event.delete_obj v]
    | none => []
  if obj.is_none = false then
    ({ t with user_data := some obj }, ev_old ++ [Event.new_obj obj])
  else
    ({ t with user_data := none }, ev_old)

/-- `PyWFTimerTask::get_user_data`. -/
def PyWFTimerTask.get_user_data (t : WFTimerTask) : PyObject :=
  match t.user_data with
  | none => PyObject.py_none
  | some o => o

/-- `PyWFTimerTask::set_callback`. -/
def PyWFTimerTask.set_callback (t : WFTimerTask) (cb : PyCallback) : WFTimerTask × List Event :=
  let user_data := t.user_data
  let task := { t with user_data := none }
  let deleter : TaskDeleterWrapper := { f := cb }
  let r := WFPlainTask.set_callback task deleter
  ({ r.1 with user_data := user_data }, r.2)

/-- `PyWFCounterTask::set_user_data`. -/
def PyWFCounterTask.set_user_data (t : WFCounterTask) (obj : PyObject) :
    WFCounterTask × List Event :=
  let old := t.user_data
  let ev_old : List Event :=
    match old with
    | some v => [Event.delete_obj v]
    | none => []
  if obj.is_none = false then
    ({ t with user_data := some obj }, ev_old ++ [Event.new_obj obj])
  else
    ({ t with user_data := none }, ev_old)

/-- `PyWFCounterTask::get_user_data`. -/
def PyWFCounterTask.get_user_data (t : WFCounterTask) : PyObject :=
  match t.user_data with
  | none => PyObject.py_none
  | some o => o

/-- `PyWFCounterTask::set_callback`. -/
def PyWFCounterTask.set_callback (t : WFCounterTask) (cb : PyCallback) :
    WFCounterTask × List Event :=
  let user_data := t.user_data
  let task := { t with user_data := none }
  let deleter : TaskDeleterWrapper := { f := cb }
  let r := WFPlainTask.set_callback task deleter
  ({ r.1 with user_data := user_data }, r.2)

/-- `PyWFGoTask::set_user_data`. -/
def PyWFGoTask.set_user_data (t : WFGoTask) (obj : PyObject) : WFGoTask × List Event :=
  let old := t.user_data
  let ev_old : List Event :=
    match old with
    | some v => [Event.delete_obj v]
    | none => []
  if obj.is_none = false then
    ({ t with user_data := some obj }, ev_old ++ [Event.new_obj obj])
  else
    ({ t with user_data := none }, ev_old)

/-- `PyWFGoTask::get_user_data`. -/
def PyWFGoTask.get_user_data (t : WFGoTask) : PyObject :=
  match t.user_data with
  | none => PyObject.py_none
  | some o => o

/-- `PyWFGoTask::set_callback`. -/
def PyWFGoTask.set_callback (t : WFGoTask) (cb : PyCallback) : WFGoTask × List Event :=
  let user_data := t.user_data
  let task := { t with user_data := none }
  let deleter : TaskDeleterWrapper := { f := cb }
  let r := WFPlainTask.set_callback task deleter
  ({ r.1 with user_data := user_data }, r.2)

/-- The user-data holder of a record, whatever its dynamic type. -/
def Record.obj : Record → Option PyObject
  | .plain d => d.obj
  | .io d => d.obj
  | .vio d => d.obj

/-- Events that free memory or release a host value. -/
def Event.is_release : Event → Bool
  | .delete_obj _ => true
  | .delete_bytes _ => true
  | .free _ => true
  | .delete_iov => true
  | .delete_record => true
  | _ => false

/-- The holder events of a record into which the values `vs` are stored one
after the other: each holder is created, then deleted before the next. -/
def holder_events : List PyObject → List Event
  | [] => []
  | v :: vs => Event.new_obj v :: Event.delete_obj v :: holder_events vs

/-- The values of a run of `set_obj` calls that are stored, that is, not none. -/
def stored_values (os : List PyObject) : List PyObject :=
  os.filter (fun o => o.is_none = false)

/-- The addresses a vectored record passes to `free` when destroyed: the
`iov_base` of its first `count` descriptors if it owns the buffers. -/
def FileVIOTaskData.freed_bases (d : FileVIOTaskData) : List Addr :=
  match d.iov, d.with_buf with
  | some arr, true => (arr.take d.count).map (fun v => v.iov_base)
  | _, _ => []

/-- The addresses a record passes to `free` when destroyed, in call order. -/
def Record.freed : Record → List Addr
  | .plain _ => []
  | .io d => if d.buf ≠ 0 then [d.buf] else []
  | .vio d => d.freed_bases

/-- The byte-container handles a record releases when destroyed, in release order. -/
def Record.handles : Record → List PyObject
  | .plain _ => []
  | .io d => d.bytes.toList
  | .vio d => (d.bytes.map List.reverse).getD []

/-- Events a record destructor can perform. -/
def Event.is_dtor_event : Event → Bool
  | .gil_acquire => true
  | .gil_release => true
  | .delete_obj _ => true
  | .delete_bytes _ => true
  | .free _ => true
  | .delete_iov => true
  | _ => false

/-- Calls of a host callback through `py_callback_wrapper`. -/
def Event.is_callback_call : Event → Bool
  | .py_callback_wrapper _ _ => true
  | _ => false

/-! ## Theorems -/

/-! ### User data: set then get -/

theorem FileTaskData.base_get_obj_set_obj (d : FileTaskData) (o : PyObject) :
    (d.set_obj o).1.get_obj = o := by
  cases o <;> simp [FileTaskData.set_obj, FileTaskData.get_obj, PyObject.is_none]

theorem FileTaskData.base_obj_set_obj (d : FileTaskData) (o : PyObject) :
    (d.set_obj o).1.obj = if o.is_none = false then some o else none := by
  cases o <;> simp [FileTaskData.set_obj, PyObject.is_none]

theorem Record.get_obj_set_obj (r : Record) (o : PyObject) :
    (r.set_obj o).1.get_obj = o := by
  cases r <;>
    simp [Record.set_obj, Record.get_obj, FileIOTaskData.set_obj, FileIOTaskData.get_obj,
      FileVIOTaskData.set_obj, FileVIOTaskData.get_obj, FileTaskData.base_get_obj_set_obj]

theorem Record.obj_set_obj (r : Record) (o : PyObject) :
    (r.set_obj o).1.obj = if o.is_none = false then some o else none := by
  cases r <;>
    simp [Record.set_obj, Record.obj, FileIOTaskData.set_obj, FileVIOTaskData.set_obj,
      FileTaskData.base_obj_set_obj]

/-- C1: for file tasks (through `FileTaskData::set_obj` / `get_obj` on a record
of any dynamic type and in any prior state, and through
`PyWFFileTask::set_user_data` / `get_user_data` on a task that carries a
record) and for timer, counter and go tasks in any prior state: after
`set_user_data(V)` with `V` not none, `get_user_data()` returns `V`; after a
further `set_user_data(none)` it returns none and the holder is null. -/
theorem C1_set_then_get_user_data (V : PyObject) (hV : V.is_none = false) :
    (∀ r : Record,
        (r.set_obj V).1.get_obj = V ∧
        ((r.set_obj V).1.set_obj PyObject.py_none).1.get_obj = PyObject.py_none ∧
        ((r.set_obj V).1.set_obj PyObject.py_none).1.obj = none) ∧
    (∀ (Args : Type) (t : WFFileTask Args), t.user_data ≠ none →
        ∃ t1 e1 t2 e2,
          PyWFFileTask.set_user_data t V = some (t1, e1) ∧
          PyWFFileTask.get_user_data t1 = some V ∧
          PyWFFileTask.set_user_data t1 PyObject.py_none = some (t2, e2) ∧
          PyWFFileTask.get_user_data t2 = some PyObject.py_none) ∧
    (∀ t : WFTimerTask,
        PyWFTimerTask.get_user_data (PyWFTimerTask.set_user_data t V).1 = V ∧
        PyWFTimerTask.get_user_data
          (PyWFTimerTask.set_user_data (PyWFTimerTask.set_user_data t V).1 PyObject.py_none).1
            = PyObject.py_none ∧
        (PyWFTimerTask.set_user_data (PyWFTimerTask.set_user_data t V).1 PyObject.py_none).1.user_data
            = none) ∧
    (∀ t : WFCounterTask,
        PyWFCounterTask.get_user_data (PyWFCounterTask.set_user_data t V).1 = V ∧
        PyWFCounterTask.get_user_data
          (PyWFCounterTask.set_user_data (PyWFCounterTask.set_user_data t V).1 PyObject.py_none).1
            = PyObject.py_none ∧
        (PyWFCounterTask.set_user_data (PyWFCounterTask.set_user_data t V).1
          PyObject.py_none).1.user_data = none) ∧
    (∀ t : WFGoTask,
        PyWFGoTask.get_user_data (PyWFGoTask.set_user_data t V).1 = V ∧
        PyWFGoTask.get_user_data
          (PyWFGoTask.set_user_data (PyWFGoTask.set_user_data t V).1 PyObject.py_none).1
            = PyObject.py_none ∧
        (PyWFGoTask.set_user_data (PyWFGoTask.set_user_data t V).1 PyObject.py_none).1.user_data
            = none) := by
  refine ⟨?_, ?_, ?_, ?_, ?_⟩
  · intro r
    refine ⟨Record.get_obj_set_obj r V, Record.get_obj_set_obj _ _, ?_⟩
    rw [Record.obj_set_obj]
    simp [PyObject.is_none]
  · intro Args t ht
    cases hud : t.user_data with
    | none => exact absurd hud ht
    | some r =>
        refine ⟨{ t with user_data := some (r.set_obj V).1 }, (r.set_obj V).2,
          { t with user_data := some ((r.set_obj V).1.set_obj PyObject.py_none).1 },
          ((r.set_obj V).1.set_obj PyObject.py_none).2, ?_, ?_, ?_, ?_⟩
        · simp only [PyWFFileTask.set_user_data, hud]
        · simp [PyWFFileTask.get_user_data, Record.get_obj_set_obj]
        · simp only [PyWFFileTask.set_user_data]
        · simp [PyWFFileTask.get_user_data, Record.get_obj_set_obj]
  · intro t
    cases V <;> simp_all [PyWFTimerTask.set_user_data, PyWFTimerTask.get_user_data,
      PyObject.is_none]
  · intro t
    cases V <;> simp_all [PyWFCounterTask.set_user_data, PyWFCounterTask.get_user_data,
      PyObject.is_none]
  · intro t
    cases V <;> simp_all [PyWFGoTask.set_user_data, PyWFGoTask.get_user_data,
      PyObject.is_none]

theorem C1_set_then_get_user_data_witness :
    PyObject.is_none (PyObject.ref 7) = false ∧
    PyWFTimerTask.get_user_data
      (PyWFTimerTask.set_user_data
        { state := 0, error := 0, user_data := some (PyObject.ref 3), callback := none }
        (PyObject.ref 7)).1 = PyObject.ref 7 ∧
    (Record.set_obj (Record.io (FileIOTaskData.new 4096 none)) (PyObject.ref 7)).1.get_obj
      = PyObject.ref 7 :=
  ⟨rfl,
   ((C1_set_then_get_user_data (PyObject.ref 7) rfl).2.2.1
      { state := 0, error := 0, user_data := some (PyObject.ref 3), callback := none }).1,
   ((C1_set_then_get_user_data (PyObject.ref 7) rfl).1 (Record.io (FileIOTaskData.new 4096 none))).1⟩

/-! ### Projections of traces -/

@[simp] theorem frees_append (l1 l2 : List Event) : frees (l1 ++ l2) = frees l1 ++ frees l2 := by
  induction l1 with
  | nil => rfl
  | cons e es ih => cases e <;> simp [frees, ih]

@[simp] theorem bytes_released_append (l1 l2 : List Event) :
    bytes_released (l1 ++ l2) = bytes_released l1 ++ bytes_released l2 := by
  induction l1 with
  | nil => rfl
  | cons e es ih => cases e <;> simp [bytes_released, ih]

@[simp] theorem objs_released_append (l1 l2 : List Event) :
    objs_released (l1 ++ l2) = objs_released l1 ++ objs_released l2 := by
  induction l1 with
  | nil => rfl
  | cons e es ih => cases e <;> simp [objs_released, ih]

@[simp] theorem objs_stored_append (l1 l2 : List Event) :
    objs_stored (l1 ++ l2) = objs_stored l1 ++ objs_stored l2 := by
  induction l1 with
  | nil => rfl
  | cons e es ih => cases e <;> simp [objs_stored, ih]

theorem frees_map_free {α : Type} (f : α → Addr) (l : List α) :
    frees (l.map (fun v => Event.free (f v))) = l.map f := by
  induction l with
  | nil => rfl
  | cons a l ih => simp [frees, ih]

theorem frees_map_delete_bytes (l : List PyObject) : frees (l.map Event.delete_bytes) = [] := by
  induction l with
  | nil => rfl
  | cons a l ih => simp [frees, ih]

theorem bytes_released_map_delete_bytes (l : List PyObject) :
    bytes_released (l.map Event.delete_bytes) = l := by
  induction l with
  | nil => rfl
  | cons a l ih => simp [bytes_released, ih]

theorem bytes_released_map_free {α : Type} (f : α → Addr) (l : List α) :
    bytes_released (l.map (fun v => Event.free (f v))) = [] := by
  induction l with
  | nil => rfl
  | cons a l ih => simp [bytes_released, ih]

theorem objs_released_map_delete_bytes (l : List PyObject) :
    objs_released (l.map Event.delete_bytes) = [] := by
  induction l with
  | nil => rfl
  | cons a l ih => simp [objs_released, ih]

theorem objs_released_map_free {α : Type} (f : α → Addr) (l : List α) :
    objs_released (l.map (fun v => Event.free (f v))) = [] := by
  induction l with
  | nil => rfl
  | cons a l ih => simp [objs_released, ih]

theorem FileTaskData.frees_dtor (d : FileTaskData) : frees d.dtor = [] := by
  unfold FileTaskData.dtor; split <;> rfl

theorem FileTaskData.bytes_released_dtor (d : FileTaskData) : bytes_released d.dtor = [] := by
  unfold FileTaskData.dtor; split <;> rfl

theorem FileTaskData.objs_released_dtor (d : FileTaskData) :
    objs_released d.dtor = d.obj.toList := by
  unfold FileTaskData.dtor; split <;> simp_all [objs_released]

theorem FileTaskData.filter_release_dtor (d : FileTaskData) :
    d.dtor.filter Event.is_release = d.obj.toList.map Event.delete_obj := by
  unfold FileTaskData.dtor; split <;> simp_all [Event.is_release]

theorem objs_stored_map_delete_bytes (l : List PyObject) :
    objs_stored (l.map Event.delete_bytes) = [] := by
  induction l with
  | nil => rfl
  | cons a l ih => simp [objs_stored, ih]

theorem objs_stored_map_free {α : Type} (f : α → Addr) (l : List α) :
    objs_stored (l.map (fun v => Event.free (f v))) = [] := by
  induction l with
  | nil => rfl
  | cons a l ih => simp [objs_stored, ih]

theorem filter_obj_event_map_delete_bytes (l : List PyObject) :
    (l.map Event.delete_bytes).filter Event.is_obj_event = [] := by
  induction l with
  | nil => rfl
  | cons a l ih => simp [Event.is_obj_event, ih]

theorem filter_obj_event_map_free {α : Type} (f : α → Addr) (l : List α) :
    (l.map (fun v => Event.free (f v))).filter Event.is_obj_event = [] := by
  induction l with
  | nil => rfl
  | cons a l ih => simp [Event.is_obj_event, ih]

theorem releases_under_lock_map_free {α : Type} (f : α → Addr) (l : List α) (n : Nat)
    (es : List Event) :
    releases_under_lock n (l.map (fun v => Event.free (f v)) ++ es) = releases_under_lock n es := by
  induction l with
  | nil => rfl
  | cons a l ih => simp [releases_under_lock, Event.is_host_release, ih]

theorem releases_under_lock_map_delete_bytes (l : List PyObject) (n : Nat) (es : List Event) :
    releases_under_lock (n + 1) (l.map Event.delete_bytes ++ es) =
      releases_under_lock (n + 1) es := by
  induction l with
  | nil => rfl
  | cons a l ih => simp [releases_under_lock, Event.is_host_release, ih]

theorem FileTaskData.objs_stored_dtor (d : FileTaskData) : objs_stored d.dtor = [] := by
  unfold FileTaskData.dtor; split <;> rfl

theorem FileTaskData.filter_obj_event_dtor (d : FileTaskData) :
    d.dtor.filter Event.is_obj_event = d.obj.toList.map Event.delete_obj := by
  unfold FileTaskData.dtor; split <;> simp_all [Event.is_obj_event]

theorem FileTaskData.releases_under_lock_dtor (d : FileTaskData) (n : Nat) :
    releases_under_lock n d.dtor = true := by
  unfold FileTaskData.dtor; split <;> simp [releases_under_lock, Event.is_host_release]

/-! ### Destruction of a single-buffer record -/

/-- C7: destroying a single-buffer record `FileIOTaskData`, in any state, calls
`free` on `buf` exactly once if `buf` is not null and never otherwise, releases
the byte-container handle exactly once if it is not null and never otherwise,
releases the held host value exactly once if one is held and never otherwise,
and frees or releases nothing else: the releasing events of the destructor are
exactly these, in this order. -/
theorem C7_FileIOTaskData_dtor (d : FileIOTaskData) :
    frees d.dtor = (if d.buf ≠ 0 then [d.buf] else []) ∧
    bytes_released d.dtor = d.bytes.toList ∧
    objs_released d.dtor = d.obj.toList ∧
    d.dtor.filter Event.is_release =
      (if d.buf ≠ 0 then [Event.free d.buf] else []) ++
      d.bytes.toList.map Event.delete_bytes ++
      d.obj.toList.map Event.delete_obj ∧
    (d.dtor.count (Event.free d.buf) = if d.buf ≠ 0 then 1 else 0) ∧
    (∀ b, (bytes_released d.dtor).count b = if d.bytes = some b then 1 else 0) ∧
    (∀ o, (objs_released d.dtor).count o = if d.obj = some o then 1 else 0) := by
  have hf : frees d.dtor = (if d.buf ≠ 0 then [d.buf] else []) := by
    unfold FileIOTaskData.dtor
    rcases hb : d.bytes with _ | b <;> by_cases h0 : d.buf = 0 <;>
      simp [h0, frees, FileTaskData.frees_dtor]
  have hb : bytes_released d.dtor = d.bytes.toList := by
    unfold FileIOTaskData.dtor
    rcases hb : d.bytes with _ | b <;> by_cases h0 : d.buf = 0 <;>
      simp [h0, bytes_released, FileTaskData.bytes_released_dtor]
  have ho : objs_released d.dtor = d.obj.toList := by
    unfold FileIOTaskData.dtor
    rcases hb : d.bytes with _ | b <;> by_cases h0 : d.buf = 0 <;>
      simp [h0, objs_released, FileTaskData.objs_released_dtor]
  refine ⟨hf, hb, ho, ?_, ?_, ?_, ?_⟩
  · unfold FileIOTaskData.dtor
    rcases hb : d.bytes with _ | b <;> by_cases h0 : d.buf = 0 <;>
      simp [h0, Event.is_release, FileTaskData.filter_release_dtor]
  · unfold FileIOTaskData.dtor FileTaskData.dtor
    rcases hb : d.bytes with _ | b <;> rcases hobj : d.obj with _ | o <;>
      by_cases h0 : d.buf = 0 <;> simp [h0, List.count_cons]
  · intro b
    rw [hb]
    rcases d.bytes with _ | c
    · simp
    · by_cases hcb : c = b <;> simp [hcb, List.count_cons]
  · intro o
    rw [ho]
    rcases d.obj with _ | c
    · simp
    · by_cases hcb : c = o <;> simp [hcb, List.count_cons]

/-! ### Destruction of a vectored record -/

theorem free_iov_bases_eq (arr : List iovec) (left i : Nat) (h : i + left ≤ arr.length) :
    free_iov_bases arr i left =
      some (((arr.drop i).take left).map (fun v => Event.free v.iov_base)) := by
  induction left generalizing i with
  | zero => simp [free_iov_bases]
  | succ k ih =>
      have hi : i < arr.length := by omega
      have hk : i + 1 + k ≤ arr.length := by omega
      rw [free_iov_bases, List.getElem?_eq_getElem hi]
      simp only [ih (i + 1) hk, Option.map_some']
      rw [List.drop_eq_getElem_cons hi, List.take_succ_cons, List.map_cons]

theorem free_iov_bases_none (arr : List iovec) (left i : Nat) (h : arr.length < i + left)
    (hl : 0 < left) : free_iov_bases arr i left = none := by
  induction left generalizing i with
  | zero => omega
  | succ k ih =>
      rw [free_iov_bases]
      by_cases hi : i < arr.length
      · rw [List.getElem?_eq_getElem hi]
        simp [ih (i + 1) (by omega) (by omega)]
      · have hnone : arr[i]? = none := List.getElem?_eq_none (Nat.le_of_not_lt hi)
        rw [hnone]

theorem free_iov_bases_zero (arr : List iovec) (count : Nat) (h : count ≤ arr.length) :
    free_iov_bases arr 0 count =
      some ((arr.take count).map (fun v => Event.free v.iov_base)) := by
  rw [free_iov_bases_eq arr count 0 (by omega), List.drop_zero]

theorem FileVIOTaskData.dtor_isSome_iff (d : FileVIOTaskData) :
    d.dtor.isSome = true ↔ d.in_bounds := by
  unfold FileVIOTaskData.dtor FileVIOTaskData.in_bounds
  rcases hi : d.iov with _ | arr <;> rcases hw : d.with_buf with _ | _ <;> simp
  by_cases hc : d.count ≤ arr.length
  · simp [free_iov_bases_eq arr d.count 0 (by omega), hc]
  · simp [free_iov_bases_none arr d.count 0 (by omega) (by omega), hc]

theorem frees_delete_bytes_array (bs : List PyObject) : frees (delete_bytes_array bs) = [] :=
  frees_map_delete_bytes _

theorem bytes_released_delete_bytes_array (bs : List PyObject) :
    bytes_released (delete_bytes_array bs) = bs.reverse :=
  bytes_released_map_delete_bytes _

theorem objs_released_delete_bytes_array (bs : List PyObject) :
    objs_released (delete_bytes_array bs) = [] :=
  objs_released_map_delete_bytes _

theorem objs_stored_delete_bytes_array (bs : List PyObject) :
    objs_stored (delete_bytes_array bs) = [] :=
  objs_stored_map_delete_bytes _

theorem filter_obj_event_delete_bytes_array (bs : List PyObject) :
    (delete_bytes_array bs).filter Event.is_obj_event = [] :=
  filter_obj_event_map_delete_bytes _

theorem releases_under_lock_delete_bytes_array (bs : List PyObject) (n : Nat) (es : List Event) :
    releases_under_lock (n + 1) (delete_bytes_array bs ++ es) =
      releases_under_lock (n + 1) es :=
  releases_under_lock_map_delete_bytes _ n es

theorem count_delete_iov_delete_bytes_array (bs : List PyObject) :
    (delete_bytes_array bs).count Event.delete_iov = 0 := by
  rw [List.count_eq_zero]
  unfold delete_bytes_array
  intro h
  rcases List.mem_map.mp h with ⟨b, _, hb⟩
  cases hb

theorem count_delete_iov_map_free {α : Type} (f : α → Addr) (l : List α) :
    (l.map (fun v => Event.free (f v))).count Event.delete_iov = 0 := by
  rw [List.count_eq_zero]
  intro h
  rcases List.mem_map.mp h with ⟨b, _, hb⟩
  cases hb

theorem FileTaskData.count_delete_iov_dtor (d : FileTaskData) :
    d.dtor.count Event.delete_iov = 0 := by
  unfold FileTaskData.dtor; split <;> simp [List.count_cons]

/-- What the destructor of a vectored record does when its loop stays inside
the descriptor array: it is defined, and its calls to `free`, its handle
releases, its user-data release and its `delete[] iov` are as listed. -/
theorem FileVIOTaskData.vio_dtor_spec (d : FileVIOTaskData) (h : d.in_bounds) :
    ∃ tr, d.dtor = some tr ∧
      frees tr = d.freed_bases ∧
      bytes_released tr = (d.bytes.map List.reverse).getD [] ∧
      objs_released tr = d.obj.toList ∧
      tr.count Event.delete_iov = (if d.iov.isSome then 1 else 0) ∧
      objs_stored tr = [] ∧
      tr.filter Event.is_obj_event = d.obj.toList.map Event.delete_obj ∧
      releases_under_lock 0 tr = true := by
  unfold FileVIOTaskData.in_bounds at h
  unfold FileVIOTaskData.dtor FileVIOTaskData.freed_bases
  rcases hi : d.iov with _ | arr <;> rcases hw : d.with_buf with _ | _
  · rcases hb : d.bytes with _ | bs <;>
      simp [frees, bytes_released, objs_released, FileTaskData.frees_dtor,
        FileTaskData.bytes_released_dtor, FileTaskData.objs_released_dtor,
        frees_delete_bytes_array, bytes_released_delete_bytes_array,
        objs_released_delete_bytes_array, count_delete_iov_delete_bytes_array,
        FileTaskData.count_delete_iov_dtor, List.count_cons, objs_stored,
        FileTaskData.objs_stored_dtor, objs_stored_delete_bytes_array,
        FileTaskData.filter_obj_event_dtor, filter_obj_event_delete_bytes_array,
        Event.is_obj_event, Event.is_host_release, releases_under_lock,
        releases_under_lock_delete_bytes_array,
        FileTaskData.releases_under_lock_dtor]
  · rcases hb : d.bytes with _ | bs <;>
      simp [frees, bytes_released, objs_released, FileTaskData.frees_dtor,
        FileTaskData.bytes_released_dtor, FileTaskData.objs_released_dtor,
        frees_delete_bytes_array, bytes_released_delete_bytes_array,
        objs_released_delete_bytes_array, count_delete_iov_delete_bytes_array,
        FileTaskData.count_delete_iov_dtor, List.count_cons, objs_stored,
        FileTaskData.objs_stored_dtor, objs_stored_delete_bytes_array,
        FileTaskData.filter_obj_event_dtor, filter_obj_event_delete_bytes_array,
        Event.is_obj_event, Event.is_host_release, releases_under_lock,
        releases_under_lock_delete_bytes_array,
        FileTaskData.releases_under_lock_dtor]
  · rcases hb : d.bytes with _ | bs <;>
      simp [frees, bytes_released, objs_released, FileTaskData.frees_dtor,
        FileTaskData.bytes_released_dtor, FileTaskData.objs_released_dtor,
        frees_delete_bytes_array, bytes_released_delete_bytes_array,
        objs_released_delete_bytes_array, count_delete_iov_delete_bytes_array,
        FileTaskData.count_delete_iov_dtor, List.count_cons, objs_stored,
        FileTaskData.objs_stored_dtor, objs_stored_delete_bytes_array,
        FileTaskData.filter_obj_event_dtor, filter_obj_event_delete_bytes_array,
        Event.is_obj_event, Event.is_host_release, releases_under_lock,
        releases_under_lock_delete_bytes_array,
        FileTaskData.releases_under_lock_dtor]
  · simp only [hi, hw] at h
    simp only [free_iov_bases_zero arr d.count h]
    generalize arr.take d.count = l
    rcases hb : d.bytes with _ | bs <;>
      simp [frees, bytes_released, objs_released, FileTaskData.frees_dtor,
        FileTaskData.bytes_released_dtor, FileTaskData.objs_released_dtor,
        frees_delete_bytes_array, bytes_released_delete_bytes_array,
        objs_released_delete_bytes_array, count_delete_iov_delete_bytes_array,
        FileTaskData.count_delete_iov_dtor, List.count_cons, frees_map_free,
        bytes_released_map_free, objs_released_map_free, count_delete_iov_map_free,
        objs_stored, FileTaskData.objs_stored_dtor, objs_stored_delete_bytes_array,
        objs_stored_map_free, filter_obj_event_map_free,
        FileTaskData.filter_obj_event_dtor, filter_obj_event_delete_bytes_array,
        Event.is_obj_event, Event.is_host_release, releases_under_lock,
        releases_under_lock_delete_bytes_array,
        releases_under_lock_map_free, FileTaskData.releases_under_lock_dtor]

/-- C3: a vectored record `FileVIOTaskData` that holds a non-null array of `n`
buffer descriptors, a non-null array of `n` byte-container handles and
`count = n` is destroyed without fault.  With `with_buf = true` the calls to
`free` are exactly one per descriptor, on its `iov_base`, in descriptor order
(so `n` calls, and each referenced buffer once when the descriptors refer to
distinct buffers); with `with_buf = false` there is no call to `free`.  In both
cases `delete[] iov` runs exactly once and each of the `n` handles is released
exactly once. -/
theorem C3_FileVIOTaskData_dtor (d : FileVIOTaskData) (arr : List iovec) (bs : List PyObject)
    (n : Nat) (hiov : d.iov = some arr) (hbytes : d.bytes = some bs)
    (harr : arr.length = n) (hbs : bs.length = n) (hcount : d.count = n) :
    ∃ tr, d.dtor = some tr ∧
      frees tr = (if d.with_buf then arr.map (fun v => v.iov_base) else []) ∧
      (frees tr).length = (if d.with_buf then n else 0) ∧
      ((arr.map (fun v => v.iov_base)).Nodup → d.with_buf = true →
        ∀ v ∈ arr, (frees tr).count v.iov_base = 1) ∧
      tr.count Event.delete_iov = 1 ∧
      bytes_released tr = bs.reverse ∧
      (bytes_released tr).length = n ∧
      (∀ b, (bytes_released tr).count b = bs.count b) := by
  have hin : d.in_bounds := by
    unfold FileVIOTaskData.in_bounds
    rw [hiov]
    rcases hw : d.with_buf with _ | _ <;> simp
    omega
  obtain ⟨tr, htr, hf, hb, _, hd, _⟩ := FileVIOTaskData.vio_dtor_spec d hin
  have htake : arr.take d.count = arr := by
    rw [hcount, ← harr]; exact List.take_length arr
  have hfrees : frees tr = (if d.with_buf then arr.map (fun v => v.iov_base) else []) := by
    rw [hf]
    unfold FileVIOTaskData.freed_bases
    rw [hiov]
    rcases hw : d.with_buf with _ | _ <;> simp [htake]
  have hbr : bytes_released tr = bs.reverse := by
    rw [hb, hbytes]; rfl
  refine ⟨tr, htr, hfrees, ?_, ?_, ?_, hbr, ?_, ?_⟩
  · rw [hfrees]; split <;> simp [harr]
  · intro hnd hw v hv
    rw [hfrees, hw]
    simp only [if_true]
    exact List.count_eq_one_of_mem hnd (List.mem_map_of_mem _ hv)
  · rw [hd, hiov]; rfl
  · rw [hbr]; simp [hbs]
  · intro b; rw [hbr]; exact List.count_reverse b bs

/-- C3 at `n = 3`: three owned buffers are freed and three handles released;
the same record built with `with_buf = false` frees none. -/
theorem C3_FileVIOTaskData_dtor_witness :
    (∃ tr, (FileVIOTaskData.new (some [⟨4096, 16⟩, ⟨8192, 16⟩, ⟨12288, 32⟩]) true
        (some [PyObject.ref 1, PyObject.ref 2, PyObject.ref 3]) 3).dtor = some tr ∧
      frees tr = [4096, 8192, 12288] ∧
      bytes_released tr = [PyObject.ref 3, PyObject.ref 2, PyObject.ref 1]) ∧
    (∃ tr, (FileVIOTaskData.new (some [⟨4096, 16⟩, ⟨8192, 16⟩, ⟨12288, 32⟩]) false
        (some [PyObject.ref 1, PyObject.ref 2, PyObject.ref 3]) 3).dtor = some tr ∧
      frees tr = [] ∧
      (bytes_released tr).length = 3) := by
  constructor
  · obtain ⟨tr, h1, h2, _, _, _, h6, _, _⟩ :=
      C3_FileVIOTaskData_dtor
        (FileVIOTaskData.new (some [⟨4096, 16⟩, ⟨8192, 16⟩, ⟨12288, 32⟩]) true
          (some [PyObject.ref 1, PyObject.ref 2, PyObject.ref 3]) 3)
        [⟨4096, 16⟩, ⟨8192, 16⟩, ⟨12288, 32⟩]
        [PyObject.ref 1, PyObject.ref 2, PyObject.ref 3] 3 rfl rfl rfl rfl rfl
    exact ⟨tr, h1, by simpa [FileVIOTaskData.new] using h2, by simpa using h6⟩
  · obtain ⟨tr, h1, h2, _, _, _, _, h7, _⟩ :=
      C3_FileVIOTaskData_dtor
        (FileVIOTaskData.new (some [⟨4096, 16⟩, ⟨8192, 16⟩, ⟨12288, 32⟩]) false
          (some [PyObject.ref 1, PyObject.ref 2, PyObject.ref 3]) 3)
        [⟨4096, 16⟩, ⟨8192, 16⟩, ⟨12288, 32⟩]
        [PyObject.ref 1, PyObject.ref 2, PyObject.ref 3] 3 rfl rfl rfl rfl rfl
    exact ⟨tr, h1, by simpa [FileVIOTaskData.new] using h2, h7⟩

/-! ### Replacing the user data of a record, and its whole lifetime -/

theorem FileTaskData.base_set_obj_trace (d : FileTaskData) (o : PyObject) :
    (d.set_obj o).2 =
      d.obj.toList.map Event.delete_obj ++ (if o.is_none = false then [Event.new_obj o] else []) := by
  unfold FileTaskData.set_obj
  rcases d.obj with _ | v <;> cases o <;> simp [PyObject.is_none]

theorem Record.set_obj_trace (r : Record) (o : PyObject) :
    (r.set_obj o).2 =
      r.obj.toList.map Event.delete_obj ++ (if o.is_none = false then [Event.new_obj o] else []) := by
  cases r <;>
    simp only [Record.set_obj, Record.obj, FileIOTaskData.set_obj, FileVIOTaskData.set_obj,
      FileTaskData.base_set_obj_trace]

theorem Record.freed_set_obj (r : Record) (o : PyObject) : (r.set_obj o).1.freed = r.freed := by
  cases r <;> rfl

theorem Record.handles_set_obj (r : Record) (o : PyObject) :
    (r.set_obj o).1.handles = r.handles := by
  cases r <;> rfl

theorem Record.in_bounds_set_obj (r : Record) (o : PyObject) (h : r.in_bounds) :
    (r.set_obj o).1.in_bounds := by
  cases r <;> trivial

theorem FileIOTaskData.io_dtor_spec (d : FileIOTaskData) :
    frees d.dtor = (if d.buf ≠ 0 then [d.buf] else []) ∧
    bytes_released d.dtor = d.bytes.toList ∧
    objs_released d.dtor = d.obj.toList ∧
    objs_stored d.dtor = [] ∧
    d.dtor.filter Event.is_obj_event = d.obj.toList.map Event.delete_obj ∧
    releases_under_lock 0 d.dtor = true := by
  unfold FileIOTaskData.dtor
  rcases hb : d.bytes with _ | b <;> by_cases h0 : d.buf = 0 <;>
    simp [h0, frees, bytes_released, objs_released, objs_stored, Event.is_obj_event,
      Event.is_host_release, releases_under_lock, FileTaskData.frees_dtor,
      FileTaskData.bytes_released_dtor, FileTaskData.objs_released_dtor,
      FileTaskData.objs_stored_dtor, FileTaskData.filter_obj_event_dtor,
      FileTaskData.releases_under_lock_dtor]

/-- What `delete` on a record does, whatever its dynamic type. -/
theorem Record.dtor_spec (r : Record) (h : r.in_bounds) :
    ∃ tr, r.dtor = some tr ∧
      frees tr = r.freed ∧
      bytes_released tr = r.handles ∧
      objs_released tr = r.obj.toList ∧
      objs_stored tr = [] ∧
      tr.filter Event.is_obj_event = r.obj.toList.map Event.delete_obj ∧
      releases_under_lock 0 tr = true := by
  cases r with
  | plain d =>
      exact ⟨d.dtor, rfl, d.frees_dtor, d.bytes_released_dtor, d.objs_released_dtor,
        d.objs_stored_dtor, d.filter_obj_event_dtor, d.releases_under_lock_dtor 0⟩
  | io d =>
      obtain ⟨h1, h2, h3, h4, h5, h6⟩ := d.io_dtor_spec
      exact ⟨d.dtor, rfl, h1, h2, h3, h4, h5, h6⟩
  | vio d =>
      obtain ⟨tr, h0, h1, h2, h3, _, h4, h5, h6⟩ := d.vio_dtor_spec h
      exact ⟨tr, h0, h1, h2, h3, h4, h5, h6⟩

theorem Record.lifetime_cons (r : Record) (o : PyObject) (os : List PyObject) :
    r.lifetime (o :: os) = ((r.set_obj o).1.lifetime os).map (fun es => (r.set_obj o).2 ++ es) := by
  simp [Record.lifetime, Record.set_obj_seq, Option.map_map, Function.comp_def,
    List.append_assoc]

theorem objs_released_filter_obj_event (l : List Event) :
    objs_released (l.filter Event.is_obj_event) = objs_released l := by
  induction l with
  | nil => rfl
  | cons e es ih => cases e <;> simp [List.filter_cons, Event.is_obj_event, objs_released, ih]

theorem objs_stored_filter_obj_event (l : List Event) :
    objs_stored (l.filter Event.is_obj_event) = objs_stored l := by
  induction l with
  | nil => rfl
  | cons e es ih => cases e <;> simp [List.filter_cons, Event.is_obj_event, objs_stored, ih]

theorem objs_released_map_delete_obj (l : List PyObject) :
    objs_released (l.map Event.delete_obj) = l := by
  induction l with
  | nil => rfl
  | cons a l ih => simp [objs_released, ih]

theorem objs_stored_map_delete_obj (l : List PyObject) :
    objs_stored (l.map Event.delete_obj) = [] := by
  induction l with
  | nil => rfl
  | cons a l ih => simp [objs_stored, ih]

theorem objs_released_holder_events (vs : List PyObject) :
    objs_released (holder_events vs) = vs := by
  induction vs with
  | nil => rfl
  | cons a l ih => simp [holder_events, objs_released, ih]

theorem objs_stored_holder_events (vs : List PyObject) :
    objs_stored (holder_events vs) = vs := by
  induction vs with
  | nil => rfl
  | cons a l ih => simp [holder_events, objs_stored, ih]

/-- The whole life of a record: any run of `set_obj` calls, then `delete`. -/
theorem Record.lifetime_spec (r : Record) (os : List PyObject) (h : r.in_bounds) :
    ∃ tr, r.lifetime os = some tr ∧
      tr.filter Event.is_obj_event =
        r.obj.toList.map Event.delete_obj ++ holder_events (stored_values os) ∧
      frees tr = r.freed ∧
      bytes_released tr = r.handles := by
  induction os generalizing r with
  | nil =>
      obtain ⟨tr, h0, h1, h2, _, _, h5, _⟩ := r.dtor_spec h
      refine ⟨tr, ?_, ?_, h1, h2⟩
      · simp [Record.lifetime, Record.set_obj_seq, h0]
      · simp [h5, stored_values, holder_events]
  | cons o os ih =>
      obtain ⟨tr, h0, h1, h2, h3⟩ := ih (r.set_obj o).1 (r.in_bounds_set_obj o h)
      refine ⟨(r.set_obj o).2 ++ tr, ?_, ?_, ?_, ?_⟩
      · rw [Record.lifetime_cons, h0]; rfl
      · rw [List.filter_append, h1, Record.obj_set_obj, Record.set_obj_trace]
        cases o <;>
          simp [PyObject.is_none, stored_values, holder_events, List.filter_cons,
            Event.is_obj_event, List.filter_map, Function.comp_def]
      · rw [frees_append, h2, Record.freed_set_obj, Record.set_obj_trace]
        cases o <;> rcases r.obj with _ | v <;> simp [PyObject.is_none, frees]
      · rw [bytes_released_append, h3, Record.handles_set_obj, Record.set_obj_trace]
        cases o <;> rcases r.obj with _ | v <;> simp [PyObject.is_none, bytes_released]

/-- C2: on a single-buffer or vectored record that holds the host value `V1`,
`set_obj(V2)` releases `V1` exactly once, leaves the buffer, the descriptor
array, the ownership flag, the count and the byte-container handles unchanged,
and frees none of them.  For every record and every run of `set_obj` calls
followed by destruction of the record, the holder events are: the release of
the value held at the start, then for each stored (non-none) value its storing
followed by its release; so every stored value is released exactly once, and
the buffers and handles are freed by the destructor alone. -/
theorem C2_replace_releases_once (dio : FileIOTaskData) (dvio : FileVIOTaskData)
    (V1 V2 : PyObject) (h1 : dio.obj = some V1) (h2 : dvio.obj = some V1) :
    (objs_released (dio.set_obj V2).2 = [V1] ∧
      (dio.set_obj V2).2.count (Event.delete_obj V1) = 1 ∧
      (dio.set_obj V2).1.buf = dio.buf ∧
      (dio.set_obj V2).1.bytes = dio.bytes ∧
      frees (dio.set_obj V2).2 = [] ∧
      bytes_released (dio.set_obj V2).2 = []) ∧
    (objs_released (dvio.set_obj V2).2 = [V1] ∧
      (dvio.set_obj V2).2.count (Event.delete_obj V1) = 1 ∧
      (dvio.set_obj V2).1.iov = dvio.iov ∧
      (dvio.set_obj V2).1.with_buf = dvio.with_buf ∧
      (dvio.set_obj V2).1.bytes = dvio.bytes ∧
      (dvio.set_obj V2).1.count = dvio.count ∧
      frees (dvio.set_obj V2).2 = [] ∧
      bytes_released (dvio.set_obj V2).2 = [] ∧
      (dvio.set_obj V2).2.count Event.delete_iov = 0) ∧
    (∀ (r : Record) (os : List PyObject), r.in_bounds →
      ∃ tr, r.lifetime os = some tr ∧
        tr.filter Event.is_obj_event =
          r.obj.toList.map Event.delete_obj ++ holder_events (stored_values os) ∧
        objs_stored tr = stored_values os ∧
        objs_released tr = r.obj.toList ++ stored_values os ∧
        (∀ v, (objs_released tr).count v = (objs_stored tr).count v + r.obj.toList.count v) ∧
        frees tr = r.freed ∧
        bytes_released tr = r.handles) := by
  refine ⟨?_, ?_, ?_⟩
  · simp only [FileIOTaskData.set_obj, FileTaskData.base_set_obj_trace, h1]
    cases V2 <;> simp [PyObject.is_none, objs_released, frees, bytes_released, List.count_cons]
  · simp only [FileVIOTaskData.set_obj, FileTaskData.base_set_obj_trace, h2]
    cases V2 <;> simp [PyObject.is_none, objs_released, frees, bytes_released, List.count_cons]
  · intro r os hr
    obtain ⟨tr, h0, hf, hfr, hb⟩ := r.lifetime_spec os hr
    have hs : objs_stored tr = stored_values os := by
      rw [← objs_stored_filter_obj_event, hf, objs_stored_append, objs_stored_map_delete_obj,
        objs_stored_holder_events, List.nil_append]
    have hrel : objs_released tr = r.obj.toList ++ stored_values os := by
      rw [← objs_released_filter_obj_event, hf, objs_released_append,
        objs_released_map_delete_obj, objs_released_holder_events]
    refine ⟨tr, h0, hf, hs, hrel, ?_, hfr, hb⟩
    intro v
    rw [hrel, hs, List.count_append, Nat.add_comm]

/-- C2 on a concrete single-buffer record: `ref 1` is replaced by `ref 2`, then
by none, then by `ref 3`, and the record is destroyed. -/
theorem C2_replace_releases_once_witness :
    objs_released ((FileIOTaskData.mk ⟨some (PyObject.ref 1)⟩ 4096 (some (PyObject.ref 9))).set_obj
      (PyObject.ref 2)).2 = [PyObject.ref 1] ∧
    ∃ tr, (Record.io (FileIOTaskData.mk ⟨some (PyObject.ref 1)⟩ 4096 (some (PyObject.ref 9)))).lifetime
        [PyObject.ref 2, PyObject.py_none, PyObject.ref 3] = some tr ∧
      objs_released tr = [PyObject.ref 1, PyObject.ref 2, PyObject.ref 3] ∧
      frees tr = [4096] ∧
      bytes_released tr = [PyObject.ref 9] := by
  have h := C2_replace_releases_once
    (FileIOTaskData.mk ⟨some (PyObject.ref 1)⟩ 4096 (some (PyObject.ref 9)))
    (FileVIOTaskData.mk ⟨some (PyObject.ref 1)⟩ none false none 0)
    (PyObject.ref 1) (PyObject.ref 2) rfl rfl
  refine ⟨h.1.1, ?_⟩
  obtain ⟨tr, h0, _, _, h3, _, h5, h6⟩ :=
    h.2.2 (Record.io (FileIOTaskData.mk ⟨some (PyObject.ref 1)⟩ 4096 (some (PyObject.ref 9))))
      [PyObject.ref 2, PyObject.py_none, PyObject.ref 3] trivial
  exact ⟨tr, h0, h3, h5, h6⟩

/-! ### The host lock -/

theorem PyWFFileTask.set_callback_eq {Args : Type} (t : WFFileTask Args) (cb : PyCallback) :
    PyWFFileTask.set_callback t cb = some ({ t with callback := some { f := cb } }, []) := by
  unfold PyWFFileTask.set_callback WFFileTask.set_callback
  rcases hc : t.callback with _ | old <;> simp [TaskDeleterWrapper.dtor]

/-- Without the stash of `set_callback`, replacing a closure installed earlier
would destroy the record: the engine's `set_callback` on a task that holds a
bridge closure and a plain record deletes that record and clears the slot. -/
theorem WFFileTask.set_callback_deletes_attached_record {Args : Type} (t : WFFileTask Args)
    (old deleter : TaskDeleterWrapper) (d : FileTaskData)
    (hc : t.callback = some old) (hu : t.user_data = some (Record.plain d)) :
    WFFileTask.set_callback t deleter =
      some ({ t with callback := some deleter, user_data := none },
        Event.delete_record :: d.dtor) := by
  unfold WFFileTask.set_callback
  simp [hc, TaskDeleterWrapper.dtor, hu, Record.dtor]

/-- C4: `set_callback` of a file, timer, counter or go task, on any prior state
of the task (whatever its `user_data` slot holds, and whether a closure was
installed before or not), returns the same task with only the callback slot
changed: the slot holds the closure that wraps the given host callback, the
`user_data` slot holds what it held before, and no event occurs, so nothing is
released. -/
theorem C4_set_callback_keeps_user_data :
    (∀ (Args : Type) (t : WFFileTask Args) (cb : PyCallback),
      PyWFFileTask.set_callback t cb = some ({ t with callback := some { f := cb } }, []) ∧
      ∃ t1, PyWFFileTask.set_callback t cb = some (t1, []) ∧
        t1.user_data = t.user_data ∧ t1.callback = some { f := cb } ∧
        t1.args = t.args ∧ t1.retval = t.retval ∧ t1.state = t.state ∧ t1.error = t.error) ∧
    (∀ (t : WFTimerTask) (cb : PyCallback),
      PyWFTimerTask.set_callback t cb = ({ t with callback := some { f := cb } }, []) ∧
      (PyWFTimerTask.set_callback t cb).1.user_data = t.user_data) ∧
    (∀ (t : WFCounterTask) (cb : PyCallback),
      PyWFCounterTask.set_callback t cb = ({ t with callback := some { f := cb } }, []) ∧
      (PyWFCounterTask.set_callback t cb).1.user_data = t.user_data) ∧
    (∀ (t : WFGoTask) (cb : PyCallback),
      PyWFGoTask.set_callback t cb = ({ t with callback := some { f := cb } }, []) ∧
      (PyWFGoTask.set_callback t cb).1.user_data = t.user_data) := by
  refine ⟨?_, ?_, ?_, ?_⟩
  · intro Args t cb
    exact ⟨PyWFFileTask.set_callback_eq t cb, _, PyWFFileTask.set_callback_eq t cb,
      rfl, rfl, rfl, rfl, rfl, rfl⟩
  · intro t cb
    unfold PyWFTimerTask.set_callback WFPlainTask.set_callback
    rcases hc : t.callback with _ | old <;> simp [TaskDeleterWrapper.dtor_plain]
  · intro t cb
    unfold PyWFCounterTask.set_callback WFPlainTask.set_callback
    rcases hc : t.callback with _ | old <;> simp [TaskDeleterWrapper.dtor_plain]
  · intro t cb
    unfold PyWFGoTask.set_callback WFPlainTask.set_callback
    rcases hc : t.callback with _ | old <;> simp [TaskDeleterWrapper.dtor_plain]

/-! ### Completion of a file task -/

theorem free_iov_bases_mem (arr : List iovec) (left i : Nat) (es : List Event)
    (h : free_iov_bases arr i left = some es) : ∀ e ∈ es, e.is_dtor_event = true := by
  induction left generalizing i es with
  | zero =>
      simp only [free_iov_bases, Option.some.injEq] at h
      subst h; simp
  | succ k ih =>
      rw [free_iov_bases] at h
      rcases hv : arr[i]? with _ | v
      · rw [hv] at h; cases h
      · rw [hv] at h
        rcases hrec : free_iov_bases arr (i + 1) k with _ | es1
        · rw [hrec] at h; cases h
        · rw [hrec] at h
          simp only [Option.map_some', Option.some.injEq] at h
          subst h
          intro e he
          rcases List.mem_cons.mp he with rfl | he1
          · rfl
          · exact ih (i + 1) es1 hrec e he1

theorem FileTaskData.base_dtor_mem (d : FileTaskData) : ∀ e ∈ d.dtor, e.is_dtor_event = true := by
  unfold FileTaskData.dtor
  split <;> simp [Event.is_dtor_event]

theorem FileIOTaskData.io_dtor_mem (d : FileIOTaskData) :
    ∀ e ∈ d.dtor, e.is_dtor_event = true := by
  intro e he
  unfold FileIOTaskData.dtor at he
  rcases List.mem_append.mp he with he1 | he2
  · rcases List.mem_append.mp he1 with h | h
    · split at h
      · rw [List.mem_singleton.mp h]; rfl
      · simp at h
    · split at h
      · simp at h; rcases h with rfl | rfl | rfl <;> rfl
      · simp at h
  · exact d.toFileTaskData.base_dtor_mem e he2

theorem delete_bytes_array_mem (bs : List PyObject) :
    ∀ e ∈ delete_bytes_array bs, e.is_dtor_event = true := by
  intro e he
  unfold delete_bytes_array at he
  rcases List.mem_map.mp he with ⟨b, _, rfl⟩
  rfl

theorem FileVIOTaskData.vio_dtor_mem (d : FileVIOTaskData) (tr : List Event)
    (h : d.dtor = some tr) : ∀ e ∈ tr, e.is_dtor_event = true := by
  unfold FileVIOTaskData.dtor at h
  simp only [Option.map_eq_some'] at h
  obtain ⟨es, hes, rfl⟩ := h
  have hloop : ∀ e ∈ es, e.is_dtor_event = true := by
    split at hes
    · exact free_iov_bases_mem _ _ _ _ hes
    · simp only [Option.some.injEq] at hes
      subst hes; simp
  intro e he
  rcases List.mem_append.mp he with he1 | he2
  · rcases List.mem_append.mp he1 with he3 | he4
    · rcases List.mem_append.mp he3 with he5 | he6
      · exact hloop e he5
      · split at he6
        · rw [List.mem_singleton.mp he6]; rfl
        · simp at he6
    · split at he4
      · rcases List.mem_append.mp he4 with h | h
        · rcases List.mem_append.mp h with h | h
          · rw [List.mem_singleton.mp h]; rfl
          · exact delete_bytes_array_mem _ e h
        · rw [List.mem_singleton.mp h]; rfl
      · simp at he4
  · exact d.toFileTaskData.base_dtor_mem e he2

theorem Record.dtor_mem (r : Record) (tr : List Event) (h : r.dtor = some tr) :
    ∀ e ∈ tr, e.is_dtor_event = true := by
  cases r with
  | plain d =>
      simp only [Record.dtor, Option.some.injEq] at h
      subst h; exact d.base_dtor_mem
  | io d =>
      simp only [Record.dtor, Option.some.injEq] at h
      subst h; exact d.io_dtor_mem
  | vio d => exact d.vio_dtor_mem tr h

theorem TaskDeleterWrapper.dtor_null {Args : Type} (t : WFFileTask Args)
    (h : t.user_data = none) : TaskDeleterWrapper.dtor t = some (t, []) := by
  unfold TaskDeleterWrapper.dtor
  rw [h]

theorem count_delete_record_of_dtor_events (tr : List Event)
    (h : ∀ e ∈ tr, e.is_dtor_event = true) : tr.count Event.delete_record = 0 := by
  rw [List.count_eq_zero]
  intro hmem
  have := h _ hmem
  simp [Event.is_dtor_event] at this

theorem filter_callback_call_of_dtor_events (tr : List Event)
    (h : ∀ e ∈ tr, e.is_dtor_event = true) : tr.filter Event.is_callback_call = [] := by
  rw [List.filter_eq_nil_iff]
  intro e he
  have := h e he
  cases e <;> simp_all [Event.is_dtor_event, Event.is_callback_call]

theorem Record.set_obj_seq_mem (r : Record) (os : List PyObject) :
    ∀ e ∈ (r.set_obj_seq os).2, e.is_obj_event = true := by
  induction os generalizing r with
  | nil => simp [Record.set_obj_seq]
  | cons o os ih =>
      intro e he
      simp only [Record.set_obj_seq] at he
      rcases List.mem_append.mp he with h | h
      · rw [Record.set_obj_trace] at h
        rcases List.mem_append.mp h with h1 | h1
        · rcases List.mem_map.mp h1 with ⟨v, _, rfl⟩
          rfl
        · split at h1
          · rw [List.mem_singleton.mp h1]; rfl
          · simp at h1
      · exact ih _ e h

theorem Record.set_obj_seq_in_bounds (r : Record) (os : List PyObject) (h : r.in_bounds) :
    (r.set_obj_seq os).1.in_bounds := by
  induction os generalizing r with
  | nil => exact h
  | cons o os ih => exact ih _ (r.in_bounds_set_obj o h)

theorem Record.set_obj_seq_freed (r : Record) (os : List PyObject) :
    (r.set_obj_seq os).1.freed = r.freed := by
  induction os generalizing r with
  | nil => rfl
  | cons o os ih =>
      simp only [Record.set_obj_seq]
      rw [ih, Record.freed_set_obj]

theorem Record.set_obj_seq_handles (r : Record) (os : List PyObject) :
    (r.set_obj_seq os).1.handles = r.handles := by
  induction os generalizing r with
  | nil => rfl
  | cons o os ih =>
      simp only [Record.set_obj_seq]
      rw [ih, Record.handles_set_obj]

/-- The calls of a host callback on a task that carries a record are defined;
they change nothing but the record, which goes through the `set_obj` calls of
the values written, and the callback slot. -/
theorem PyWFFileTask.run_calls_eq {Args : Type} (cs : List WrapperCall) (t : WFFileTask Args)
    (r : Record) (h : t.user_data = some r) :
    PyWFFileTask.run_calls cs t =
      some ({ t with user_data := some (r.set_obj_seq (WrapperCall.writes cs)).1,
                     callback := WrapperCall.last_callback cs t.callback },
        (r.set_obj_seq (WrapperCall.writes cs)).2) := by
  induction cs generalizing t r with
  | nil =>
      simp only [PyWFFileTask.run_calls, WrapperCall.writes, Record.set_obj_seq,
        WrapperCall.last_callback, ← h]
  | cons c cs ih =>
      cases c with
      | get_user_data =>
          simp only [PyWFFileTask.run_calls, PyWFFileTask.get_user_data, h, WrapperCall.writes,
            WrapperCall.last_callback]
          exact ih t r h
      | set_user_data obj =>
          simp only [PyWFFileTask.run_calls, PyWFFileTask.set_user_data, h, WrapperCall.writes,
            Record.set_obj_seq, WrapperCall.last_callback]
          rw [ih { t with user_data := some (r.set_obj obj).1 } (r.set_obj obj).1 rfl]
          rfl
      | set_callback cb =>
          simp only [PyWFFileTask.run_calls, PyWFFileTask.set_callback_eq, WrapperCall.writes,
            WrapperCall.last_callback]
          rw [ih { t with callback := some { f := cb } } r h]
          simp

theorem count_delete_record_of_obj_events (tr : List Event)
    (h : ∀ e ∈ tr, e.is_obj_event = true) : tr.count Event.delete_record = 0 := by
  rw [List.count_eq_zero]
  intro hmem
  have := h _ hmem
  simp [Event.is_obj_event] at this

theorem filter_callback_call_of_obj_events (tr : List Event)
    (h : ∀ e ∈ tr, e.is_obj_event = true) : tr.filter Event.is_callback_call = [] := by
  rw [List.filter_eq_nil_iff]
  intro e he
  have := h e he
  cases e <;> simp_all [Event.is_obj_event, Event.is_callback_call]

/-- C5: take a file task that carries a record (of any dynamic type), call
`set_user_data(V)` for any `V`, then `set_callback(C)`, and let the engine
invoke the installed closure once and then drop it, with a host callback that
makes any run of `get_user_data`, `set_user_data` and `set_callback` calls on
the wrapper it receives.  The resulting trace starts with the one call of `C`, made through a
wrapper over the same task while the record is attached, so that
`get_user_data()` on entry to `C` returns `V`; then come the holder events of
the callback's own writes, then the return of `C`; only then comes the one
`delete` of the record, issued by the destructor of the bridge, followed by
the events of the destructor of the record as the callback left it, which
releases the value held last and frees the buffers and handles of the record.
No other call of a host callback and no other `delete` of a record occurs,
and afterwards the task's `user_data` slot is null.  The destructor of the
bridge does nothing on a task whose slot is already null.  From
`set_user_data(V)` on, the events are those of the lifetime of the record
under the writes `V` and then those of the callback. -/
theorem C5_callback_then_record_deleted (Args : Type) (host : HostRuntime Args)
    (t : WFFileTask Args) (r : Record) (V : PyObject) (C : PyCallback)
    (hr : t.user_data = some r) (hb : r.in_bounds) :
    ∃ t1 e1 t2 t3 ws wev rlast rest,
      PyWFFileTask.set_user_data t V = some (t1, e1) ∧
      PyWFFileTask.set_callback t1 C = some (t2, []) ∧
      PyWFFileTask.get_user_data t2 = some V ∧
      ws = WrapperCall.writes (host C t2) ∧
      ((r.set_obj V).1.set_obj_seq ws) = (rlast, wev) ∧
      WFFileTask.invoke_then_drop host t2 =
        some (t3, Event.py_callback_wrapper C (some V) ::
          (wev ++ Event.py_callback_returned C :: Event.delete_record :: rest)) ∧
      rlast.dtor = some rest ∧
      (Event.py_callback_wrapper C (some V) ::
          (wev ++ Event.py_callback_returned C :: Event.delete_record :: rest)).filter
        Event.is_callback_call = [Event.py_callback_wrapper C (some V)] ∧
      (Event.py_callback_wrapper C (some V) ::
          (wev ++ Event.py_callback_returned C :: Event.delete_record :: rest)).count
        Event.delete_record = 1 ∧
      wev.count Event.delete_record = 0 ∧
      rest.count Event.delete_record = 0 ∧
      objs_released rest = rlast.obj.toList ∧
      frees rest = r.freed ∧
      bytes_released rest = r.handles ∧
      frees wev = [] ∧
      bytes_released wev = [] ∧
      r.lifetime (V :: ws) = some (e1 ++ wev ++ rest) ∧
      (ws = [] → V.is_none = false → objs_released rest = [V]) ∧
      t3.user_data = none ∧
      TaskDeleterWrapper.dtor t3 = some (t3, []) := by
  have hb1 : (r.set_obj V).1.in_bounds := r.in_bounds_set_obj V hb
  let t2 : WFFileTask Args :=
    { t with user_data := some (r.set_obj V).1, callback := some { f := C } }
  let ws := WrapperCall.writes (host C t2)
  have hb2 : ((r.set_obj V).1.set_obj_seq ws).1.in_bounds :=
    Record.set_obj_seq_in_bounds _ ws hb1
  obtain ⟨rest, hrest, hfr, hbr, hrel, _, _, _⟩ :=
    ((r.set_obj V).1.set_obj_seq ws).1.dtor_spec hb2
  have hmem := Record.dtor_mem _ rest hrest
  have hwmem := Record.set_obj_seq_mem (r.set_obj V).1 ws
  have hwfree : frees ((r.set_obj V).1.set_obj_seq ws).2 = [] ∧
      bytes_released ((r.set_obj V).1.set_obj_seq ws).2 = [] := by
    generalize ((r.set_obj V).1.set_obj_seq ws).2 = l at hwmem
    induction l with
    | nil => exact ⟨rfl, rfl⟩
    | cons e es ih =>
        have he := hwmem e (List.mem_cons_self e es)
        have ih1 := ih (fun x hx => hwmem x (List.mem_cons_of_mem e hx))
        cases e <;> simp_all [Event.is_obj_event, frees, bytes_released]
  have hcalls := PyWFFileTask.run_calls_eq (host C t2) t2 (r.set_obj V).1 rfl
  refine ⟨{ t with user_data := some (r.set_obj V).1 }, (r.set_obj V).2, t2,
    { t with user_data := none, callback := none }, ws,
    ((r.set_obj V).1.set_obj_seq ws).2, ((r.set_obj V).1.set_obj_seq ws).1, rest,
    ?_, ?_, ?_, rfl, rfl, ?_, hrest, ?_, ?_, ?_, ?_, hrel, ?_, ?_, hwfree.1, hwfree.2, ?_, ?_,
    rfl, ?_⟩
  · simp only [PyWFFileTask.set_user_data, hr]
  · exact PyWFFileTask.set_callback_eq _ C
  · simp [t2, PyWFFileTask.get_user_data, Record.get_obj_set_obj]
  · have hseen : PyWFFileTask.get_user_data t2 = some V := by
      simp [t2, PyWFFileTask.get_user_data, Record.get_obj_set_obj]
    simp only [WFFileTask.invoke_then_drop, PyWFFileTask.native_callback, hcalls, hseen,
      Option.map_some', TaskDeleterWrapper.dtor, hrest, t2]
    simp [ws, t2]
  · simp [List.filter_cons, List.filter_append, Event.is_callback_call,
      filter_callback_call_of_dtor_events rest hmem,
      filter_callback_call_of_obj_events _ hwmem]
  · simp [List.count_cons, List.count_append, count_delete_record_of_dtor_events rest hmem,
      count_delete_record_of_obj_events _ hwmem]
  · exact count_delete_record_of_obj_events _ hwmem
  · exact count_delete_record_of_dtor_events rest hmem
  · rw [hfr, Record.set_obj_seq_freed, Record.freed_set_obj]
  · rw [hbr, Record.set_obj_seq_handles, Record.handles_set_obj]
  · simp [Record.lifetime, Record.set_obj_seq, hrest, List.append_assoc]
  · intro hws hV
    rw [hrel, hws]
    simp [Record.set_obj_seq, Record.obj_set_obj, hV]
  · exact TaskDeleterWrapper.dtor_null _ rfl

/-- C5 on a single-buffer read task that carries `FileIOTaskData(4096, ref 9)`,
with user data `ref 7` and callback `⟨1⟩`, under a host callback that reads the
user data and then replaces it by `ref 8`: the destructor of the record
releases `ref 8`, and `ref 7` was released by the callback's own write. -/
theorem C5_callback_then_record_deleted_witness :
    ∃ t2 t3,
      PyWFFileTask.set_callback
        ({ args := (), retval := 128, state := 0, error := 0,
           user_data := some (Record.io (FileIOTaskData.mk ⟨some (PyObject.ref 7)⟩ 4096
             (some (PyObject.ref 9)))),
           callback := none } : WFFileTask Unit) ⟨1⟩ = some (t2, []) ∧
      WFFileTask.invoke_then_drop
          (fun _ _ => [WrapperCall.get_user_data, WrapperCall.set_user_data (PyObject.ref 8)])
          t2 =
        some (t3, [Event.py_callback_wrapper ⟨1⟩ (some (PyObject.ref 7)),
          Event.delete_obj (PyObject.ref 7), Event.new_obj (PyObject.ref 8),
          Event.py_callback_returned ⟨1⟩, Event.delete_record,
          Event.free 4096,
          Event.gil_acquire, Event.delete_bytes (PyObject.ref 9), Event.gil_release,
          Event.gil_acquire, Event.delete_obj (PyObject.ref 8), Event.gil_release]) ∧
      t3.user_data = none := by
  obtain ⟨t1, e1, t2, t3, ws, wev, rlast, rest, h1, h2, _, h4, h5, h6, h7, _, _, _, _, _, _, _,
      _, _, _, _, h19, _⟩ :=
    C5_callback_then_record_deleted Unit
      (fun _ _ => [WrapperCall.get_user_data, WrapperCall.set_user_data (PyObject.ref 8)])
      { args := (), retval := 128, state := 0, error := 0,
        user_data := some (Record.io (FileIOTaskData.new 4096 (some (PyObject.ref 9)))),
        callback := none }
      (Record.io (FileIOTaskData.new 4096 (some (PyObject.ref 9)))) (PyObject.ref 7) ⟨1⟩
      rfl trivial
  simp only [PyWFFileTask.set_user_data, Option.some.injEq, Prod.mk.injEq] at h1
  obtain ⟨rfl, _⟩ := h1
  have hws : ws = [PyObject.ref 8] := h4
  subst hws
  have h5a : rlast = Record.io (FileIOTaskData.mk ⟨some (PyObject.ref 8)⟩ 4096
      (some (PyObject.ref 9))) := (congrArg Prod.fst h5).symm.trans rfl
  have h5b : wev = [Event.delete_obj (PyObject.ref 7), Event.new_obj (PyObject.ref 8)] :=
    (congrArg Prod.snd h5).symm.trans rfl
  subst h5a h5b
  have hx : rest = [Event.free 4096,
      Event.gil_acquire, Event.delete_bytes (PyObject.ref 9), Event.gil_release,
      Event.gil_acquire, Event.delete_obj (PyObject.ref 8), Event.gil_release] :=
    Option.some.inj (h7.symm.trans rfl)
  subst hx
  exact ⟨t2, t3, h2, h6, h19⟩

/-! ### Argument views -/

theorem read_bytes_spec (mem : Mem) (n : Nat) (p : Addr)
    (h : ∀ k, k < n → (mem (p + k)).isSome = true) :
    ∃ bs, read_bytes mem p n = some bs ∧ bs.length = n ∧
      ∀ k, k < n → mem (p + k) = bs[k]? := by
  induction n generalizing p with
  | zero => exact ⟨[], rfl, rfl, fun k hk => absurd hk (Nat.not_lt_zero k)⟩
  | succ n ih =>
      have h0 := h 0 (Nat.succ_pos n)
      rw [Nat.add_zero] at h0
      obtain ⟨b, hb⟩ := Option.isSome_iff_exists.mp h0
      have hnext : ∀ k, k < n → (mem (p + 1 + k)).isSome = true := by
        intro k hk
        have := h (k + 1) (Nat.succ_lt_succ hk)
        rwa [show p + (k + 1) = p + 1 + k by rw [Nat.add_assoc, Nat.add_comm 1 k]] at this
      obtain ⟨bs, hbs, hlen, hget⟩ := ih (p + 1) hnext
      refine ⟨b :: bs, ?_, ?_, ?_⟩
      · rw [read_bytes, hb]
        simp only [hbs, Option.map_some']
      · simp [hlen]
      · intro k hk
        cases k with
        | zero => simpa using hb
        | succ j =>
            have := hget j (Nat.lt_of_succ_lt_succ hk)
            rw [show p + 1 + j = p + (j + 1) by rw [Nat.add_assoc, Nat.add_comm 1 j]] at this
            simpa using this

theorem PyFileIOArgs._get_content_eq (mem : Mem) (p : FileIOArgs) :
    PyFileIOArgs._get_content mem p = PyFileIOArgs.get_content mem p := rfl

theorem PyFileIOArgs.get_content_spec (mem : Mem) (p : FileIOArgs)
    (h : ∀ k, k < p.count → (mem (p.buf + k)).isSome = true) :
    ∃ bs, PyFileIOArgs.get_content mem p = some bs ∧ bs.length = p.count ∧
      ∀ k, k < p.count → mem (p.buf + k) = bs[k]? := by
  obtain ⟨bs, h1, h2, h3⟩ := read_bytes_spec mem p.count p.buf h
  refine ⟨bs, ?_, h2, h3⟩
  unfold PyFileIOArgs.get_content
  by_cases hc : p.count > 0
  · simp only [hc, if_true]; exact h1
  · have h0 : p.count = 0 := by omega
    rw [h0] at h1
    simp only [read_bytes] at h1
    simp only [hc, if_false]; exact h1

/-- C10: for every single-buffer argument structure whose `count` bytes at
`buf` are readable, the live view and the detached copy made by `copy()` are
both defined and agree: the copy has the same `fd` and `offset`, and its
content equals `get_content()`, which is the `count` bytes of memory starting
at `buf`.  When `count = 0` both contents are empty whatever `buf` and the
memory are, so a null `buf` is never read. -/
theorem C10_copy_agrees_with_view (mem : Mem) (p : FileIOArgs)
    (h : ∀ k, k < p.count → (mem (p.buf + k)).isSome = true) :
    ∃ bs c, PyFileIOArgs.get_content mem p = some bs ∧
      PyFileIOArgs.copy mem p = some c ∧
      c.get_content = bs ∧
      c.get_fd = PyFileIOArgs.get_fd p ∧
      c.get_offset = PyFileIOArgs.get_offset p ∧
      bs.length = p.count ∧
      (∀ k, k < p.count → mem (p.buf + k) = bs[k]?) ∧
      (p.count = 0 → bs = []) ∧
      (∀ (mem1 : Mem) (q : FileIOArgs), q.count = 0 →
        PyFileIOArgs.get_content mem1 q = some [] ∧
        PyFileIOArgs.copy mem1 q = some { fd := q.fd, content := [], offset := q.offset }) := by
  obtain ⟨bs, h1, h2, h3⟩ := PyFileIOArgs.get_content_spec mem p h
  refine ⟨bs, { fd := p.fd, content := bs, offset := p.offset }, h1, ?_, rfl, rfl, rfl, h2, h3,
    ?_, ?_⟩
  · unfold PyFileIOArgs.copy
    rw [PyFileIOArgs._get_content_eq, h1]
    rfl
  · intro h0
    exact List.length_eq_zero.mp (h2.trans h0)
  · intro mem1 q hq
    simp [PyFileIOArgs.copy, PyFileIOArgs._get_content, PyFileIOArgs.get_content, hq,
      PyFileIOArgs.get_fd, PyFileIOArgs.get_offset]

/-- C10 on a three-byte buffer at address 100, and on `count = 0` with a null
`buf` over a memory where nothing is mapped. -/
theorem C10_copy_agrees_with_view_witness :
    (∃ bs c,
      PyFileIOArgs.get_content (fun a => some (Fin.ofNat a))
        { fd := 3, buf := 100, count := 3, offset := 0 } = some bs ∧
      PyFileIOArgs.copy (fun a => some (Fin.ofNat a))
        { fd := 3, buf := 100, count := 3, offset := 0 } = some c ∧
      c.get_content = bs ∧ bs.length = 3) ∧
    PyFileIOArgs.copy (fun _ => none) { fd := 3, buf := 0, count := 0, offset := 8 }
      = some { fd := 3, content := [], offset := 8 } := by
  obtain ⟨bs, c, h1, h2, h3, _, _, h6, _, _, h9⟩ :=
    C10_copy_agrees_with_view (fun a => some (Fin.ofNat a))
      { fd := 3, buf := 100, count := 3, offset := 0 } (fun _ _ => rfl)
  exact ⟨⟨bs, c, h1, h2, h3, h6⟩,
    (h9 (fun _ => none) { fd := 3, buf := 0, count := 0, offset := 8 } rfl).2⟩

/-- C6 as stated fails: a read task that asked for 4 bytes and whose engine
result code is 2 reports `get_retval() = 2`, while `get_args().get_content()`
is the 4 bytes of the buffer, not the 2 bytes read. -/
theorem C6_get_content_ignores_retval :
    PyWFFileTask.get_retval
      ({ args := { fd := 3, buf := 100, count := 4, offset := 0 }, retval := 2, state := 0,
         error := 0, user_data := none, callback := none } : WFFileTask FileIOArgs) = 2 ∧
    PyFileIOArgs.get_content (fun a => some (Fin.ofNat a))
      (PyWFFileTask.get_args
        ({ args := { fd := 3, buf := 100, count := 4, offset := 0 }, retval := 2, state := 0,
           error := 0, user_data := none, callback := none } : WFFileTask FileIOArgs))
      = some [100, 101, 102, 103] ∧
    read_bytes (fun a => some (Fin.ofNat a)) 100 2 = some [100, 101] := by
  decide

/-- C6, amended: for a single-buffer task whose `count` bytes at `buf` are
readable, `get_args().get_content()` is the byte sequence of length `count`
(the `count` field of the argument structure) that starts at `buf`; it does not
depend on the engine's result code, and `get_retval()` returns that code.  The
content has `retval` bytes exactly when `retval = count`. -/
theorem C6_get_content_is_count_bytes (mem : Mem) (t : WFFileTask FileIOArgs)
    (h : ∀ k, k < t.args.count → (mem (t.args.buf + k)).isSome = true) :
    ∃ bs, PyFileIOArgs.get_content mem (PyWFFileTask.get_args t) = some bs ∧
      bs.length = t.args.count ∧
      (∀ k, k < t.args.count → mem (t.args.buf + k) = bs[k]?) ∧
      PyFileIOArgs.get_count (PyWFFileTask.get_args t) = t.args.count ∧
      PyWFFileTask.get_retval t = t.retval ∧
      (∀ r : Int, PyWFFileTask.get_retval { t with retval := r } = r ∧
        PyFileIOArgs.get_content mem (PyWFFileTask.get_args { t with retval := r }) = some bs) ∧
      ((bs.length : Int) = PyWFFileTask.get_retval t ↔ t.retval = (t.args.count : Int)) := by
  obtain ⟨bs, h1, h2, h3⟩ := PyFileIOArgs.get_content_spec mem t.args h
  refine ⟨bs, h1, h2, h3, rfl, rfl, fun r => ⟨rfl, h1⟩, ?_⟩
  unfold PyWFFileTask.get_retval
  rw [h2]
  exact eq_comm

/-- C6, amended, on a task that asked for 128 bytes and read 128. -/
theorem C6_get_content_is_count_bytes_witness :
    ∃ bs, PyFileIOArgs.get_content (fun a => some (Fin.ofNat a))
        { fd := 3, buf := 4096, count := 128, offset := 0 } = some bs ∧
      bs.length = 128 ∧
      PyWFFileTask.get_retval
        ({ args := { fd := 3, buf := 4096, count := 128, offset := 0 }, retval := 128,
           state := 0, error := 0, user_data := none, callback := none }
          : WFFileTask FileIOArgs) = 128 := by
  obtain ⟨bs, h1, h2, _, _, h5, _, _⟩ :=
    C6_get_content_is_count_bytes (fun a => some (Fin.ofNat a))
      { args := { fd := 3, buf := 4096, count := 128, offset := 0 }, retval := 128,
        state := 0, error := 0, user_data := none, callback := none } (fun _ _ => rfl)
  exact ⟨bs, h1, h2, h5⟩

theorem PyFileVIOArgs.get_content_loop_spec (mem : Mem) (arr : List iovec) (left i : Nat)
    (hlen : i + left ≤ arr.length)
    (hread : ∀ j, j < left → ∀ v, arr[i + j]? = some v →
      ∀ k, k < v.iov_len → (mem (v.iov_base + k)).isSome = true) :
    ∃ l, PyFileVIOArgs.get_content_loop mem (some arr) i left = some l ∧
      l.length = left ∧
      ∀ j, j < left → ∃ v bs, arr[i + j]? = some v ∧ l[j]? = some bs ∧
        read_bytes mem v.iov_base v.iov_len = some bs ∧
        bs.length = v.iov_len ∧
        ∀ k, k < v.iov_len → mem (v.iov_base + k) = bs[k]? := by
  induction left generalizing i with
  | zero => exact ⟨[], rfl, rfl, fun j hj => absurd hj (Nat.not_lt_zero j)⟩
  | succ n ih =>
      have hi : i < arr.length := by omega
      have hv : arr[i]? = some arr[i] := List.getElem?_eq_getElem hi
      obtain ⟨bs, hbs, hbl, hbg⟩ := read_bytes_spec mem arr[i].iov_len arr[i].iov_base
        (hread 0 (Nat.succ_pos n) arr[i] (by rw [Nat.add_zero]; exact hv))
      obtain ⟨l, hl, hll, hlg⟩ := ih (i + 1) (by omega) (by
        intro j hj v hjv
        exact hread (j + 1) (Nat.succ_lt_succ hj) v
          (by rw [show i + (j + 1) = i + 1 + j by omega]; exact hjv))
      refine ⟨bs :: l, ?_, ?_, ?_⟩
      · rw [PyFileVIOArgs.get_content_loop]
        simp only [hv, hbs, hl, Option.map_some']
      · simp [hll]
      · intro j hj
        cases j with
        | zero => exact ⟨arr[i], bs, by rw [Nat.add_zero]; exact hv, by simp, hbs, hbl, hbg⟩
        | succ m =>
            obtain ⟨v, cs, h1, h2, h3⟩ := hlg m (Nat.lt_of_succ_lt_succ hj)
            exact ⟨v, cs, by rw [show i + (m + 1) = i + 1 + m by omega]; exact h1,
              by simpa using h2, h3⟩

/-- C8: for a vectored argument structure whose `iov` points to an array that
has at least `iovcnt` descriptors, each of the first `iovcnt` describing
readable memory, `PyFileVIOArgs::get_content()` returns a list of exactly
`iovcnt` byte sequences (none when `iovcnt ≤ 0`, whatever `iov` is); its `i`-th
element is the `iov_len` bytes of memory that start at the `iov_base` of the
`i`-th descriptor.  `get_fd()` and `get_offset()` return the `fd` and `offset`
fields. -/
theorem C8_vio_get_content (mem : Mem) (p : FileVIOArgs) (arr : List iovec)
    (hiov : p.iov = some arr) (hcnt : p.iovcnt.toNat ≤ arr.length)
    (hread : ∀ i, i < p.iovcnt.toNat → ∀ v, arr[i]? = some v →
      ∀ k, k < v.iov_len → (mem (v.iov_base + k)).isSome = true) :
    ∃ l, PyFileVIOArgs.get_content mem p = some l ∧
      l.length = p.iovcnt.toNat ∧
      (∀ i, i < p.iovcnt.toNat → ∃ v bs, arr[i]? = some v ∧ l[i]? = some bs ∧
        read_bytes mem v.iov_base v.iov_len = some bs ∧
        bs.length = v.iov_len ∧
        ∀ k, k < v.iov_len → mem (v.iov_base + k) = bs[k]?) ∧
      (p.iovcnt ≤ 0 → l = []) ∧
      (∀ (mem1 : Mem) (q : FileVIOArgs), q.iovcnt ≤ 0 →
        PyFileVIOArgs.get_content mem1 q = some []) ∧
      PyFileVIOArgs.get_fd p = p.fd ∧
      PyFileVIOArgs.get_offset p = p.offset := by
  obtain ⟨l, h1, h2, h3⟩ := PyFileVIOArgs.get_content_loop_spec mem arr p.iovcnt.toNat 0
    (by omega) (by
      intro j hj v hv
      rw [Nat.zero_add] at hv
      exact hread j hj v hv)
  refine ⟨l, ?_, h2, ?_, ?_, ?_, rfl, rfl⟩
  · unfold PyFileVIOArgs.get_content
    rw [hiov]; exact h1
  · intro i hi
    obtain ⟨v, bs, h4, h5⟩ := h3 i hi
    rw [Nat.zero_add] at h4
    exact ⟨v, bs, h4, h5⟩
  · intro h0
    have : p.iovcnt.toNat = 0 := Int.toNat_eq_zero.mpr h0
    exact List.length_eq_zero.mp (h2.trans this)
  · intro mem1 q hq
    have : q.iovcnt.toNat = 0 := Int.toNat_eq_zero.mpr hq
    unfold PyFileVIOArgs.get_content
    rw [this]
    rfl

/-- C8 on two descriptors, of 2 bytes at address 10 and of 3 bytes at address 20. -/
theorem C8_vio_get_content_witness :
    ∃ l, PyFileVIOArgs.get_content (fun a => some (Fin.ofNat a))
        { fd := 5, iov := some [⟨10, 2⟩, ⟨20, 3⟩], iovcnt := 2, offset := 64 } = some l ∧
      l.length = 2 ∧
      l[1]? = some [20, 21, 22] := by
  obtain ⟨l, h1, h2, h3, _⟩ :=
    C8_vio_get_content (fun a => some (Fin.ofNat a))
      { fd := 5, iov := some [⟨10, 2⟩, ⟨20, 3⟩], iovcnt := 2, offset := 64 }
      [⟨10, 2⟩, ⟨20, 3⟩] rfl (by decide) (fun _ _ _ _ _ _ => rfl)
  refine ⟨l, h1, h2, ?_⟩
  obtain ⟨v, bs, h4, h5, h6, _⟩ := h3 1 (by decide)
  have hv : v = ⟨20, 3⟩ := by
    simp at h4
    exact h4.symm
  subst hv
  have hbs : bs = [20, 21, 22] := Option.some.inj (h6.symm.trans (by decide))
  rw [h5, hbs]

end PyWF
